import Mathlib

/-! MobileOSKernel: the resource-manager core.

A shallow embedding of the resource-manager functions of
`src/MobileOSKernel/mobile_os_kernel.c` (the CLI variant).

Modelling conventions
* The global `mobile_kernel` is passed explicitly: every operation takes the kernel state and
  returns the new one (paired with the C return value when there is one).
* A C array `T a[N]` is a function `Fin N → T`; `a[i] = v` is `Function.update a i v`.
* `for (int i = 0; i < N; i++)` is `forLoop` / `forLoopRet` (the latter when the body may `return`).
* Unsigned machine integers are `Nat`; the only arithmetic that can wrap (`available_memory +=`)
  is reduced modulo `2 ^ 32` explicitly.
* The environment is an input: `time(NULL)` is a clock reading `now`, `rand()` is a stream of
  draws, `malloc` is the pointer value it returned (0 is `NULL`), and the heap is the set of
  addresses of the live allocated blocks. `printf` does not touch the kernel state.
* A call whose behaviour C leaves undefined (`free` of an address that is not a live block, a
  write past the end of `log_buffer`) has no result: the operation returns `none`.
-/

namespace MobileOS

/-! # Part I: the embedding and the specification vocabulary -/

/-! ## Constants and enumerations -/

abbrev MAX_PROCESSES : Nat := 128

abbrev MAX_SENSORS : Nat := 16

abbrev MAX_APP_PERMISSIONS : Nat := 8

abbrev SECURITY_TOKEN_LENGTH : Nat := 32

/-- The width of `uint32_t`. -/
abbrev U32 : Nat := 2 ^ 32

inductive PowerManagementState where
  | POWER_FULL
  | POWER_INTERACTIVE
  | POWER_BATTERY_SAVE
  | POWER_ULTRA_BATTERY_SAVE
  | POWER_SUSPEND
  deriving DecidableEq, Repr

inductive SensorType where
  | SENSOR_ACCELEROMETER
  | SENSOR_GYROSCOPE
  | SENSOR_GPS
  | SENSOR_PROXIMITY
  | SENSOR_LIGHT
  | SENSOR_TEMPERATURE
  | SENSOR_HEART_RATE
  deriving DecidableEq, Repr

inductive AppPermission where
  | PERM_LOCATION
  | PERM_CAMERA
  | PERM_MICROPHONE
  | PERM_STORAGE
  | PERM_NETWORK
  | PERM_CONTACTS
  | PERM_SENSORS
  | PERM_BACKGROUND_PROCESS
  deriving DecidableEq, Repr

/-- The integer value of an `AppPermission` enumerator, used as an index into `permissions`. -/
def AppPermission.index : AppPermission → Fin MAX_APP_PERMISSIONS
  | .PERM_LOCATION => 0
  | .PERM_CAMERA => 1
  | .PERM_MICROPHONE => 2
  | .PERM_STORAGE => 3
  | .PERM_NETWORK => 4
  | .PERM_CONTACTS => 5
  | .PERM_SENSORS => 6
  | .PERM_BACKGROUND_PROCESS => 7

/-! ## Data model -/

/-- The struct `SensorConfig`; `data_buffer` is the pointer value, 0 being `NULL`. -/
@[ext]
structure SensorConfig where
  type : SensorType
  is_active : Bool
  data_buffer : Nat
  sampling_rate : Nat

/-- The struct `EnhancedProcessControlBlock`; `process_name` is the `char[32]` array. -/
@[ext]
structure EnhancedProcessControlBlock where
  pid : Nat
  process_name : Fin 32 → Nat
  priority : Nat
  memory_usage : Nat
  permissions : Fin MAX_APP_PERMISSIONS → Bool
  power_state : PowerManagementState
  last_active_timestamp : Nat

/-- The struct `SecurityToken`. -/
@[ext]
structure SecurityToken where
  token : Fin SECURITY_TOKEN_LENGTH → Nat
  creation_time : Nat
  is_valid : Bool

/-- The struct `MobileOSKernel`, the type of the global `mobile_kernel`. -/
@[ext]
structure MobileOSKernel where
  processes : Fin MAX_PROCESSES → EnhancedProcessControlBlock
  sensors : Fin MAX_SENSORS → SensorConfig
  system_token : SecurityToken
  current_power_mode : PowerManagementState
  total_memory : Nat
  available_memory : Nat

/-! ## Loops -/

/-- The first `m` iterations (`i = 0, …, m - 1`) of `for (int i = 0; i < n; i++) body(i)`. -/
def forLoop {σ : Type} (n : Nat) (body : Fin n → σ → σ) : (m : Nat) → m ≤ n → σ → σ
  | 0, _, s => s
  | m + 1, h, s => body ⟨m, h⟩ (forLoop n body m (Nat.le_of_succ_le h) s)

/-- Outcome of a loop whose body may execute `return r`. -/
inductive LoopResult (ρ σ : Type) where
  | returned (r : ρ) (s : σ)
  | running (s : σ)

/-- The first `m` iterations of a `for` loop whose body may return early: once an iteration has
returned, the later ones do not run. -/
def forLoopRet {ρ σ : Type} (n : Nat) (body : Fin n → σ → LoopResult ρ σ) :
    (m : Nat) → m ≤ n → σ → LoopResult ρ σ
  | 0, _, s => .running s
  | m + 1, h, s =>
    match forLoopRet n body m (Nat.le_of_succ_le h) s with
    | .returned r s' => .returned r s'
    | .running s' => body ⟨m, h⟩ s'

/-! ## Operations -/

/-- The function `system_time`: `(uint32_t)time(NULL)`, for the clock reading `now`. -/
def system_time (now : Nat) : Nat := now % U32

/-- Body of the sensor loop of `power_management`, case `POWER_BATTERY_SAVE`. -/
def batterySaveBody (i : Fin MAX_SENSORS) (k : MobileOSKernel) : MobileOSKernel :=
  if (k.sensors i).is_active then
    let slot := { k.sensors i with sampling_rate := (k.sensors i).sampling_rate / 2 }
    { k with sensors := Function.update k.sensors i slot }
  else k

/-- Body of the process loop of `power_management`, case `POWER_ULTRA_BATTERY_SAVE`. -/
def ultraBatterySaveBody (i : Fin MAX_PROCESSES) (k : MobileOSKernel) : MobileOSKernel :=
  if (k.processes i).priority < 2 then
    let slot := { k.processes i with power_state := .POWER_SUSPEND }
    { k with processes := Function.update k.processes i slot }
  else k

/-- The function `power_management` (`update_power_management` in the GUI variant). -/
def power_management (k : MobileOSKernel) (new_state : PowerManagementState) : MobileOSKernel :=
  let k1 := { k with current_power_mode := new_state }
  match new_state with
  | .POWER_FULL => k1
  | .POWER_BATTERY_SAVE => forLoop MAX_SENSORS batterySaveBody MAX_SENSORS (Nat.le_refl _) k1
  | .POWER_ULTRA_BATTERY_SAVE =>
    forLoop MAX_PROCESSES ultraBatterySaveBody MAX_PROCESSES (Nat.le_refl _) k1
  | _ => k1

/-- Body of the loop of `register_sensor`; `buf` is the pointer `malloc(1024)` returns. -/
def registerSensorBody (type : SensorType) (sampling_rate buf : Nat) (i : Fin MAX_SENSORS)
    (k : MobileOSKernel) : LoopResult Bool MobileOSKernel :=
  if !(k.sensors i).is_active then
    let slot : SensorConfig :=
      { type := type, is_active := true, sampling_rate := sampling_rate, data_buffer := buf }
    .returned true { k with sensors := Function.update k.sensors i slot }
  else .running k

/-- The function `register_sensor`. -/
def register_sensor (k : MobileOSKernel) (type : SensorType) (sampling_rate buf : Nat) :
    Bool × MobileOSKernel :=
  match forLoopRet MAX_SENSORS (registerSensorBody type sampling_rate buf) MAX_SENSORS
      (Nat.le_refl _) k with
  | .returned r k' => (r, k')
  | .running k' => (false, k')

/-- The call `strncpy(dst, src, n)` on a 32-byte destination: the first `n` bytes become the
characters of the C string `src` (up to its terminator), padded with NUL; the rest is kept. -/
def strncpy (dst : Fin 32 → Nat) (src : List Nat) (n : Nat) : Fin 32 → Nat :=
  fun i => if i.val < n then (src.takeWhile (fun c => c != 0)).getD i.val 0 else dst i

/-- Body of the permission loop of `create_process` for the slot `i`: iteration `j` sets
`permissions[required_permissions[j]]`. An index `j` beyond the end of the caller's array (a read
the C program must not make) sets nothing. -/
def setPermissionBody (required_permissions : List AppPermission) (i : Fin MAX_PROCESSES)
    (permission_count : Nat) (j : Fin permission_count) (k : MobileOSKernel) : MobileOSKernel :=
  match required_permissions.get? j.val with
  | some p =>
    let slot := { k.processes i with
      permissions := Function.update (k.processes i).permissions p.index true }
    { k with processes := Function.update k.processes i slot }
  | none => k

/-- Body of the slot loop of `create_process`. -/
def createProcessBody (process_name : List Nat) (priority : Nat)
    (required_permissions : List AppPermission) (permission_count now : Nat)
    (i : Fin MAX_PROCESSES) (k : MobileOSKernel) : LoopResult Nat MobileOSKernel :=
  if (k.processes i).pid = 0 then
    let slot := { k.processes i with
      pid := i.val + 1
      process_name := strncpy (k.processes i).process_name process_name 31
      priority := priority
      last_active_timestamp := system_time now }
    let k1 := { k with processes := Function.update k.processes i slot }
    let k2 := forLoop permission_count (setPermissionBody required_permissions i permission_count)
      permission_count (Nat.le_refl _) k1
    .returned (k2.processes i).pid k2
  else .running k

/-- The function `create_process` (`create_enhanced_process` in the GUI variant). -/
def create_process (k : MobileOSKernel) (process_name : List Nat) (priority : Nat)
    (required_permissions : List AppPermission) (permission_count now : Nat) :
    Nat × MobileOSKernel :=
  match forLoopRet MAX_PROCESSES
      (createProcessBody process_name priority required_permissions permission_count now)
      MAX_PROCESSES (Nat.le_refl _) k with
  | .returned r k' => (r, k')
  | .running k' => (0, k')

/-- Body of the loop of `generate_security_token`; `rand i` is the `i`-th draw of `rand()`. -/
def tokenBody (rand : Nat → Nat) (i : Fin SECURITY_TOKEN_LENGTH) (k : MobileOSKernel) :
    MobileOSKernel :=
  { k with system_token :=
      { k.system_token with token := Function.update k.system_token.token i (rand i.val % 256) } }

/-- The function `generate_security_token`. -/
def generate_security_token (k : MobileOSKernel) (rand : Nat → Nat) (now : Nat) :
    MobileOSKernel :=
  let k1 := forLoop SECURITY_TOKEN_LENGTH (tokenBody rand) SECURITY_TOKEN_LENGTH (Nat.le_refl _) k
  let k2 := { k1 with system_token := { k1.system_token with creation_time := system_time now } }
  { k2 with system_token := { k2.system_token with is_valid := true } }

/-- The heap: `heap p` tells whether `p` is the address of a live allocated block. -/
abbrev Heap : Type := Nat → Bool

/-- The heap once the block at `p` has been released. -/
def release (heap : Heap) (p : Nat) : Heap :=
  fun q => if q = p then false else heap q

/-- The call `free((void*)p)`: nothing for `NULL`, the release of a live block, and undefined
(`none`) for any other address. -/
def free (heap : Heap) (p : Nat) : Option Heap :=
  if p = 0 then some heap
  else if heap p then some (release heap p)
  else none

/-- Body of the reclamation loop of `adaptive_memory_allocation`, on the kernel and the heap;
`handle` is the value of `(uint32_t)malloc(requested_size)`. A returned `none` is the
undefined `free` of an address that is not a live block, which ends the execution. -/
def reclaimBody (requested_size handle : Nat) (i : Fin MAX_PROCESSES)
    (s : MobileOSKernel × Heap) : LoopResult (Option Nat) (MobileOSKernel × Heap) :=
  if (s.1.processes i).power_state = .POWER_SUSPEND then
    let process_memory := (s.1.processes i).memory_usage
    if process_memory > 0 then
      match free s.2 (s.1.processes i).memory_usage with
      | none => .returned none s
      | some heap1 =>
        let k1 := { s.1 with available_memory := (s.1.available_memory + process_memory) % U32 }
        let slot := { k1.processes i with memory_usage := 0 }
        let k2 := { k1 with processes := Function.update k1.processes i slot }
        if k2.available_memory ≥ requested_size then
          .returned (some handle)
            ({ k2 with available_memory := k2.available_memory - requested_size }, heap1)
        else .running (k2, heap1)
    else .running s
  else .running s

/-- The function `adaptive_memory_allocation` of the CLI variant, called with the heap `heap`:
`some (r, k)` when it returns `r` and leaves the kernel `k`, `none` when it runs into an
undefined `free`. -/
def adaptive_memory_allocation (k : MobileOSKernel) (requested_size handle : Nat)
    (heap : Heap) : Option (Nat × MobileOSKernel) :=
  if k.available_memory ≥ requested_size then
    some (handle, { k with available_memory := k.available_memory - requested_size })
  else
    match forLoopRet MAX_PROCESSES (reclaimBody requested_size handle) MAX_PROCESSES
        (Nat.le_refl _) (k, heap) with
    | .returned (some r) s => some (r, s.1)
    | .returned none _ => none
    | .running s => some (0, s.1)

/-- Body of the loop of `simulate_scheduler`; `now i` is the clock reading in iteration `i`. -/
def schedulerBody (now : Fin MAX_PROCESSES → Nat) (i : Fin MAX_PROCESSES) (k : MobileOSKernel) :
    MobileOSKernel :=
  if (k.processes i).pid ≠ 0 then
    let slot := { k.processes i with last_active_timestamp := system_time (now i) }
    { k with processes := Function.update k.processes i slot }
  else k

/-- The function `simulate_scheduler`. -/
def simulate_scheduler (k : MobileOSKernel) (now : Fin MAX_PROCESSES → Nat) : MobileOSKernel :=
  forLoop MAX_PROCESSES (schedulerBody now) MAX_PROCESSES (Nat.le_refl _) k

/-- The all-zero process slot `memset` leaves. -/
def zeroProcess : EnhancedProcessControlBlock :=
  { pid := 0, process_name := fun _ => 0, priority := 0, memory_usage := 0,
    permissions := fun _ => false, power_state := .POWER_FULL, last_active_timestamp := 0 }

/-- The all-zero sensor slot `memset` leaves. -/
def zeroSensor : SensorConfig :=
  { type := .SENSOR_ACCELEROMETER, is_active := false, data_buffer := 0, sampling_rate := 0 }

/-- The kernel after `memset(&mobile_kernel, 0, sizeof(MobileOSKernel))`. -/
def zeroKernel : MobileOSKernel :=
  { processes := fun _ => zeroProcess, sensors := fun _ => zeroSensor,
    system_token := { token := fun _ => 0, creation_time := 0, is_valid := false },
    current_power_mode := .POWER_FULL, total_memory := 0, available_memory := 0 }

/-- The function `initialize_mobile_os`. -/
def initialize_mobile_os (rand : Nat → Nat) (now : Nat) : MobileOSKernel :=
  let k0 := zeroKernel
  let k1 := { k0 with current_power_mode := .POWER_FULL }
  let k2 := { k1 with total_memory := 256 * 1024 * 1024 }
  let k3 := { k2 with available_memory := k2.total_memory }
  generate_security_token k3 rand now

/-! ## The allocator of the GUI variant -/

/-- The capacity of `log_buffer` in the GUI variant. -/
abbrev GUI.MAX_LOG_ENTRIES : Nat := 100

/-- The statement `strcpy(log_buffer[log_count++], entry)`, `log` being the entries
`log_buffer[0 .. log_count - 1]`: a write at an index below `MAX_LOG_ENTRIES` appends the
entry, one past the end of the array is undefined (`none`). Every entry the allocator writes
fits the 256 characters of a row. -/
def GUI.log_write (log : List String) (entry : String) : Option (List String) :=
  if log.length < GUI.MAX_LOG_ENTRIES then some (log ++ [entry]) else none

/-- Body of the loop of `adaptive_memory_allocation` in
`src/MobileOSKernel_GUI/mobile_os_kernel.c`; the state is the kernel with the entries written
to `log_buffer` so far, or `none` once a write has overrun the buffer. -/
def GUI.reclaimBody (i : Fin MAX_PROCESSES) (s : Option (MobileOSKernel × List String)) :
    Option (MobileOSKernel × List String) :=
  match s with
  | none => none
  | some (k, log) =>
    if (k.processes i).power_state = .POWER_SUSPEND then
      match GUI.log_write log "Reclaiming memory from suspended process" with
      | none => none
      | some log1 => some (k, log1)
    else some (k, log)

/-- The function `adaptive_memory_allocation` of the GUI variant: `some` of the C return
value, the kernel and the entries of `log_buffer`, or `none` when a log write overruns the
100 entries of the buffer. `update_log_display` only repaints the window. -/
def GUI.adaptive_memory_allocation (k : MobileOSKernel) (requested_size handle : Nat) :
    Option (Nat × MobileOSKernel × List String) :=
  match GUI.log_write [] ("Requested Memory Size: " ++ toString requested_size ++ " bytes") with
  | none => none
  | some log1 =>
    if k.available_memory ≥ requested_size then
      let k1 := { k with available_memory := k.available_memory - requested_size }
      match GUI.log_write log1 ("Memory Allocation Successful. Remaining Memory: " ++
          toString k1.available_memory ++ " bytes") with
      | none => none
      | some log2 => some (handle, k1, log2)
    else
      match GUI.log_write log1 "Insufficient Memory. Attempting to reclaim..." with
      | none => none
      | some log2 =>
        match forLoop MAX_PROCESSES GUI.reclaimBody MAX_PROCESSES (Nat.le_refl _)
            (some (k, log2)) with
        | none => none
        | some (k3, log3) =>
          match GUI.log_write log3 "Memory Allocation Failed" with
          | none => none
          | some log4 => some (0, k3, log4)

/-! ## Specification vocabulary: power management -/

/-- What `POWER_ULTRA_BATTERY_SAVE` does to one process slot. -/
def suspendIfLow (p : EnhancedProcessControlBlock) : EnhancedProcessControlBlock :=
  if p.priority < 2 then { p with power_state := .POWER_SUSPEND } else p

/-- What `POWER_BATTERY_SAVE` does to one sensor slot. -/
def halveIfActive (c : SensorConfig) : SensorConfig :=
  if c.is_active then { c with sampling_rate := c.sampling_rate / 2 } else c

/-! ## Specification vocabulary: scheduler pass and token generation -/

/-- What `simulate_scheduler` does to the slot `j`. -/
def touchIfOccupied (now : Fin MAX_PROCESSES → Nat) (j : Fin MAX_PROCESSES)
    (p : EnhancedProcessControlBlock) : EnhancedProcessControlBlock :=
  if p.pid ≠ 0 then { p with last_active_timestamp := system_time (now j) } else p

/-- The token `generate_security_token` leaves. -/
def freshToken (rand : Nat → Nat) (now : Nat) : SecurityToken :=
  { token := fun j => rand j.val % 256, creation_time := system_time now, is_valid := true }

/-! ## Specification vocabulary: sensor registration -/

/-- The slot `register_sensor` writes. -/
def newSensor (type : SensorType) (sampling_rate buf : Nat) : SensorConfig :=
  { type := type, is_active := true, sampling_rate := sampling_rate, data_buffer := buf }

/-- The kernel `register_sensor` leaves when `i` is the first inactive index. -/
def registeredKernel (k : MobileOSKernel) (i : Fin MAX_SENSORS) (type : SensorType)
    (sampling_rate buf : Nat) : MobileOSKernel :=
  { k with sensors := Function.update k.sensors i (newSensor type sampling_rate buf) }

/-! ## Specification vocabulary: process creation -/

/-- Whether the permission with index `q` occurs in `perms`. -/
def grantedBy (perms : List AppPermission) (q : Fin MAX_APP_PERMISSIONS) : Bool :=
  perms.any (fun p => p.index == q)

/-- The kernel with the permission array of slot `i` replaced. -/
def withPermissions (k : MobileOSKernel) (i : Fin MAX_PROCESSES)
    (perms : Fin MAX_APP_PERMISSIONS → Bool) : MobileOSKernel :=
  let slot := { k.processes i with permissions := perms }
  { k with processes := Function.update k.processes i slot }

/-- The slot `create_process` leaves at the free index `i` whose previous content is `p`. -/
def createdSlot (p : EnhancedProcessControlBlock) (i : Fin MAX_PROCESSES)
    (process_name : List Nat) (priority : Nat) (required_permissions : List AppPermission)
    (permission_count now : Nat) : EnhancedProcessControlBlock :=
  { p with
    pid := i.val + 1
    process_name := strncpy p.process_name process_name 31
    priority := priority
    last_active_timestamp := system_time now
    permissions := fun q =>
      p.permissions q || grantedBy (required_permissions.take permission_count) q }

/-- The kernel `create_process` leaves when `i` is the first free index. -/
def createdKernel (k : MobileOSKernel) (i : Fin MAX_PROCESSES)
    (process_name : List Nat) (priority : Nat) (required_permissions : List AppPermission)
    (permission_count now : Nat) : MobileOSKernel :=
  let slot := createdSlot (k.processes i) i process_name priority required_permissions
    permission_count now
  { k with processes := Function.update k.processes i slot }

/-- The arguments of one `create_process` call, with the clock reading of the call. -/
structure CreateArgs where
  process_name : List Nat
  priority : Nat
  required_permissions : List AppPermission
  permission_count : Nat
  now : Nat

/-- One `create_process` call on packed arguments. -/
def createCall (k : MobileOSKernel) (a : CreateArgs) : Nat × MobileOSKernel :=
  create_process k a.process_name a.priority a.required_permissions a.permission_count a.now

/-- Consecutive `create_process` calls, the return values dropped. -/
def createAll (k : MobileOSKernel) : List CreateArgs → MobileOSKernel
  | [] => k
  | a :: rest => createAll (createCall k a).2 rest

/-- The first `n` slots are occupied with identifiers `1, …, n`; the others are free. -/
def OccupiedPrefix (k : MobileOSKernel) (n : Nat) : Prop :=
  ∀ j : Fin MAX_PROCESSES, (k.processes j).pid = if j.val < n then j.val + 1 else 0

/-- The arguments of one `register_sensor` call, with the pointer its `malloc` returns. -/
structure RegisterArgs where
  type : SensorType
  sampling_rate : Nat
  buf : Nat

/-- One `register_sensor` call on packed arguments. -/
def registerCall (k : MobileOSKernel) (a : RegisterArgs) : Bool × MobileOSKernel :=
  register_sensor k a.type a.sampling_rate a.buf

/-- Consecutive `register_sensor` calls, the return values dropped. -/
def registerAll (k : MobileOSKernel) : List RegisterArgs → MobileOSKernel
  | [] => k
  | a :: rest => registerAll (registerCall k a).2 rest

/-- Exactly the first `n` sensor slots are active. -/
def ActivePrefix (k : MobileOSKernel) (n : Nat) : Prop :=
  ∀ j : Fin MAX_SENSORS, (k.sensors j).is_active = decide (j.val < n)

/-! ## Specification vocabulary: memory allocation -/

/-- The memory a slot gives back when reclaimed: its `memory_usage` if it is in
`POWER_SUSPEND`, nothing otherwise. -/
def suspendedUsage (p : EnhancedProcessControlBlock) : Nat :=
  if p.power_state = .POWER_SUSPEND then p.memory_usage else 0

/-- The sum of `memory_usage` over the `POWER_SUSPEND` slots at indices `< m`. -/
def suspendedSum (procs : Fin MAX_PROCESSES → EnhancedProcessControlBlock) : Nat → Nat
  | 0 => 0
  | m + 1 =>
    suspendedSum procs m + (if h : m < MAX_PROCESSES then suspendedUsage (procs ⟨m, h⟩) else 0)

/-- The sum of `memory_usage` over all the slots at indices `< m`, whatever their state. -/
def usageSum (procs : Fin MAX_PROCESSES → EnhancedProcessControlBlock) : Nat → Nat
  | 0 => 0
  | m + 1 =>
    usageSum procs m + (if h : m < MAX_PROCESSES then (procs ⟨m, h⟩).memory_usage else 0)

/-- A slot after reclamation: `memory_usage` is 0 if it is in `POWER_SUSPEND`. -/
def reclaimSlot (p : EnhancedProcessControlBlock) : EnhancedProcessControlBlock :=
  if p.power_state = .POWER_SUSPEND then { p with memory_usage := 0 } else p

/-- The value of `available_memory` after the reclamation loop has passed the slots `< m`
without returning: each reclamation adds in 32-bit arithmetic. -/
def availAfter (k : MobileOSKernel) : Nat → Nat
  | 0 => k.available_memory
  | m + 1 =>
    if h : m < MAX_PROCESSES then
      if suspendedUsage (k.processes ⟨m, h⟩) > 0 then
        (availAfter k m + suspendedUsage (k.processes ⟨m, h⟩)) % U32
      else availAfter k m
    else availAfter k m

/-- The kernel after the reclamation loop has passed the slots `< m` without returning. -/
def reclaimedPrefix (k : MobileOSKernel) (m : Nat) : MobileOSKernel :=
  { k with
    processes := fun j => if j.val < m then reclaimSlot (k.processes j) else k.processes j
    available_memory := availAfter k m }

/-- The kernel after the reclamation loop has returned in the iteration `m - 1`. -/
def allocatedAfter (k : MobileOSKernel) (m requested_size : Nat) : MobileOSKernel :=
  { reclaimedPrefix k m with available_memory := availAfter k m - requested_size }

/-- The iteration `j` of the reclamation loop returns: it reclaims something and the request
then fits. -/
def reclaimHit (k : MobileOSKernel) (requested_size : Nat) (j : Fin MAX_PROCESSES) : Prop :=
  suspendedUsage (k.processes j) > 0 ∧ requested_size ≤ availAfter k (j.val + 1)

/-- The heap after the reclamation loop has passed the slots `< m` without returning: the
blocks it freed are released. -/
def heapAfter (heap : Heap) (k : MobileOSKernel) : Nat → Heap
  | 0 => heap
  | m + 1 =>
    if h : m < MAX_PROCESSES then
      if suspendedUsage (k.processes ⟨m, h⟩) > 0 then
        release (heapAfter heap k m) (k.processes ⟨m, h⟩).memory_usage
      else heapAfter heap k m
    else heapAfter heap k m

/-- The iteration `j` of the reclamation loop runs into an undefined `free`: the slot has
something to reclaim and its `memory_usage` is not the address of a live block. -/
def reclaimCrash (heap : Heap) (k : MobileOSKernel) (j : Fin MAX_PROCESSES) : Prop :=
  suspendedUsage (k.processes j) > 0 ∧
    heapAfter heap k j.val (k.processes j).memory_usage = false

/-- The iteration `j` ends the reclamation loop, by an undefined `free` or by a return. -/
def reclaimStop (heap : Heap) (k : MobileOSKernel) (requested_size : Nat)
    (j : Fin MAX_PROCESSES) : Prop :=
  reclaimCrash heap k j ∨ reclaimHit k requested_size j

/-- The number of slots in `POWER_SUSPEND` at indices `< m`. -/
def suspendedCount (procs : Fin MAX_PROCESSES → EnhancedProcessControlBlock) : Nat → Nat
  | 0 => 0
  | m + 1 =>
    suspendedCount procs m +
      (if h : m < MAX_PROCESSES then
        (if (procs ⟨m, h⟩).power_state = .POWER_SUSPEND then 1 else 0)
       else 0)

/-- The kernel after an allocation that fits at once. -/
def allocatedDirect (k : MobileOSKernel) (requested_size : Nat) : MobileOSKernel :=
  { k with available_memory := k.available_memory - requested_size }

/-! ## Example kernels -/

/-- A kernel with 1024 units of memory of which `available` are free, whose slot 0 is a
suspended process holding `usage` units. -/
def suspendedHolder (available usage : Nat) : MobileOSKernel :=
  let slot := { zeroProcess with pid := 1, power_state := .POWER_SUSPEND, memory_usage := usage }
  { zeroKernel with
    total_memory := 1024
    available_memory := available
    processes := Function.update zeroKernel.processes 0 slot }

/-- A heap without any live block. -/
def emptyHeap : Heap := fun _ => false

/-- A heap whose only live block is at the address `p`. -/
def oneBlock (p : Nat) : Heap := fun q => q == p

/-- A kernel with 1 MB of memory of which `available` are free, whose slot 0 is a suspended
process whose `memory_usage` is `block`. -/
def blockHolder (available block : Nat) : MobileOSKernel :=
  let slot := { zeroProcess with pid := 1, power_state := .POWER_SUSPEND, memory_usage := block }
  { zeroKernel with
    total_memory := 1048576
    available_memory := available
    processes := Function.update zeroKernel.processes 0 slot }

/-- A kernel with 1024 units of memory of which `available` are free and no process. -/
def idleKernel (available : Nat) : MobileOSKernel :=
  { zeroKernel with total_memory := 1024, available_memory := available }

/-- A kernel with 100 units free in which slot 0 is a suspended process whose `memory_usage`
is 4096 and slot 1 an active process of priority 0 holding 300 units. -/
def activeBesideSuspended : MobileOSKernel :=
  let active := { zeroProcess with pid := 2, memory_usage := 300 }
  { blockHolder 100 4096 with
    processes := Function.update (blockHolder 100 4096).processes 1 active }

/-- A kernel whose 128 process slots are all occupied, slot `i` by the process `i + 1`. -/
def fullKernel : MobileOSKernel :=
  { zeroKernel with processes := fun i => { zeroProcess with pid := i.val + 1 } }

/-! ## Reachable kernel states -/

/-- One call of a core operation, with its arguments and the environment's answers. -/
inductive KernelOp where
  | create (a : CreateArgs)
  | register (a : RegisterArgs)
  | power (new_state : PowerManagementState)
  | allocate (requested_size handle : Nat) (heap : Heap)
  | token (rand : Nat → Nat) (now : Nat)
  | scheduler (now : Fin MAX_PROCESSES → Nat)

/-- The kernel after one call of a core operation, `none` when the call is undefined. -/
def KernelOp.run : KernelOp → MobileOSKernel → Option MobileOSKernel
  | .create a, k => some (createCall k a).2
  | .register a, k => some (registerCall k a).2
  | .power new_state, k => some (power_management k new_state)
  | .allocate requested_size handle heap, k =>
    (adaptive_memory_allocation k requested_size handle heap).map (fun r => r.2)
  | .token rand now, k => some (generate_security_token k rand now)
  | .scheduler now, k => some (simulate_scheduler k now)

/-- The kernel states reachable from `initialize_mobile_os` by finitely many calls of
`create_process`, `register_sensor`, `power_management`, `adaptive_memory_allocation`,
`generate_security_token` and `simulate_scheduler`. -/
inductive Reachable : MobileOSKernel → Prop where
  | init (rand : Nat → Nat) (now : Nat) : Reachable (initialize_mobile_os rand now)
  | step (op : KernelOp) {k k1 : MobileOSKernel} :
      Reachable k → op.run k = some k1 → Reachable k1

/-- The kernel states reachable from `initialize_mobile_os` by `register_sensor` (its `malloc`
succeeding) and `power_management` calls. -/
inductive SensorReachable : MobileOSKernel → Prop where
  | init (rand : Nat → Nat) (now : Nat) : SensorReachable (initialize_mobile_os rand now)
  | register (a : RegisterArgs) {k : MobileOSKernel} :
      a.buf ≠ 0 → SensorReachable k → SensorReachable (registerCall k a).2
  | power (new_state : PowerManagementState) {k : MobileOSKernel} :
      SensorReachable k → SensorReachable (power_management k new_state)

/-- The kernel of `main` after `register_sensor(SENSOR_GPS, 1)` and then
`power_management(POWER_BATTERY_SAVE)`. -/
def gpsAfterBatterySave : MobileOSKernel :=
  let a : RegisterArgs := { type := .SENSOR_GPS, sampling_rate := 1, buf := 4096 }
  power_management (registerCall (initialize_mobile_os (fun _ => 0) 0) a).2 .POWER_BATTERY_SAVE

/-- A kernel just initialized in which one process of the given priority was created. -/
def oneProcess (priority : Nat) : MobileOSKernel :=
  (create_process (initialize_mobile_os (fun _ => 0) 0) [65] priority [.PERM_LOCATION] 1 0).2

/-- A kernel just initialized in which one sensor with the given rate was registered. -/
def oneSensor (sampling_rate : Nat) : MobileOSKernel :=
  (register_sensor (initialize_mobile_os (fun _ => 0) 0) .SENSOR_LIGHT sampling_rate 4096).2

/-! # Part II: theorems -/

/-! ## Loop invariants -/

theorem forLoop_invariant {σ : Type} (n : Nat) (body : Fin n → σ → σ) (P : Nat → σ → Prop)
    (s : σ) (h0 : P 0 s)
    (hstep : ∀ (i : Fin n) (t : σ), P i.val t → P (i.val + 1) (body i t)) :
    ∀ (m : Nat) (h : m ≤ n), P m (forLoop n body m h s) := by
  intro m
  induction m with
  | zero => intro _; exact h0
  | succ m ih => intro h; exact hstep ⟨m, h⟩ _ (ih (Nat.le_of_succ_le h))

/-! ## Power management -/

/-- A loop whose iteration `i` rewrites exactly the element `i` of one array of the state, as a
function of that element, rewrites the whole prefix pointwise. -/
theorem forLoop_pointwise {σ α : Type} (n : Nat) (body : Fin n → σ → σ)
    (arr : σ → Fin n → α) (put : σ → (Fin n → α) → σ) (f : Fin n → α → α)
    (hbody : ∀ i t, body i t = put t (Function.update (arr t) i (f i (arr t i))))
    (harr : ∀ t a, arr (put t a) = a)
    (hput : ∀ t a b, put (put t a) b = put t b)
    (hid : ∀ t, put t (arr t) = t) :
    ∀ (m : Nat) (h : m ≤ n) (s : σ),
      forLoop n body m h s = put s (fun j => if j.val < m then f j (arr s j) else arr s j) := by
  intro m
  induction m with
  | zero =>
    intro _ s
    simp only [forLoop, Nat.not_lt_zero, if_false]
    exact (hid s).symm
  | succ m ih =>
    intro h s
    simp only [forLoop]
    rw [ih (Nat.le_of_succ_le h) s, hbody, harr, hput]
    congr 1
    funext j
    by_cases hj : j = ⟨m, h⟩
    · subst hj
      simp
    · have hne : j.val ≠ m := fun e => hj (Fin.ext e)
      rw [Function.update_noteq hj]
      by_cases hlt : j.val < m
      · have h2 : j.val < m + 1 := Nat.lt_succ_of_lt hlt
        simp only [hlt, h2, if_true]
      · have h2 : ¬ j.val < m + 1 := by omega
        simp only [hlt, h2, if_false]

theorem forLoop_pointwise_full {σ α : Type} (n : Nat) (body : Fin n → σ → σ)
    (arr : σ → Fin n → α) (put : σ → (Fin n → α) → σ) (f : Fin n → α → α)
    (hbody : ∀ i t, body i t = put t (Function.update (arr t) i (f i (arr t i))))
    (harr : ∀ t a, arr (put t a) = a)
    (hput : ∀ t a b, put (put t a) b = put t b)
    (hid : ∀ t, put t (arr t) = t) (s : σ) :
    forLoop n body n (Nat.le_refl n) s = put s (fun j => f j (arr s j)) := by
  rw [forLoop_pointwise n body arr put f hbody harr hput hid]
  congr 1
  funext j
  simp only [j.isLt, if_true]

theorem ultraBatterySaveBody_eq (i : Fin MAX_PROCESSES) (k : MobileOSKernel) :
    ultraBatterySaveBody i k =
      { k with processes := Function.update k.processes i (suspendIfLow (k.processes i)) } := by
  unfold ultraBatterySaveBody suspendIfLow
  split
  · rfl
  · rw [Function.update_eq_self]

theorem batterySaveBody_eq (i : Fin MAX_SENSORS) (k : MobileOSKernel) :
    batterySaveBody i k =
      { k with sensors := Function.update k.sensors i (halveIfActive (k.sensors i)) } := by
  unfold batterySaveBody halveIfActive
  split
  · rfl
  · rw [Function.update_eq_self]

theorem power_management_ultra (k : MobileOSKernel) :
    power_management k .POWER_ULTRA_BATTERY_SAVE =
      { k with current_power_mode := .POWER_ULTRA_BATTERY_SAVE
               processes := fun j => suspendIfLow (k.processes j) } := by
  simp only [power_management]
  rw [forLoop_pointwise_full MAX_PROCESSES ultraBatterySaveBody (fun t => t.processes)
    (fun t a => { t with processes := a }) (fun _ p => suspendIfLow p) ultraBatterySaveBody_eq
    (fun _ _ => rfl) (fun _ _ _ => rfl) (fun _ => rfl)]

theorem power_management_battery (k : MobileOSKernel) :
    power_management k .POWER_BATTERY_SAVE =
      { k with current_power_mode := .POWER_BATTERY_SAVE
               sensors := fun j => halveIfActive (k.sensors j) } := by
  simp only [power_management]
  rw [forLoop_pointwise_full MAX_SENSORS batterySaveBody (fun t => t.sensors)
    (fun t a => { t with sensors := a }) (fun _ c => halveIfActive c) batterySaveBody_eq
    (fun _ _ => rfl) (fun _ _ _ => rfl) (fun _ => rfl)]

theorem power_management_other (k : MobileOSKernel) (m : PowerManagementState)
    (h1 : m ≠ .POWER_BATTERY_SAVE) (h2 : m ≠ .POWER_ULTRA_BATTERY_SAVE) :
    power_management k m = { k with current_power_mode := m } := by
  cases m <;> simp_all [power_management]

/-! ## Scheduler pass and token generation -/

theorem schedulerBody_eq (now : Fin MAX_PROCESSES → Nat) (i : Fin MAX_PROCESSES)
    (k : MobileOSKernel) :
    schedulerBody now i k =
      { k with processes :=
          Function.update k.processes i (touchIfOccupied now i (k.processes i)) } := by
  unfold schedulerBody touchIfOccupied
  split
  · rfl
  · rw [Function.update_eq_self]

theorem simulate_scheduler_eq (k : MobileOSKernel) (now : Fin MAX_PROCESSES → Nat) :
    simulate_scheduler k now =
      { k with processes := fun j => touchIfOccupied now j (k.processes j) } := by
  simp only [simulate_scheduler]
  rw [forLoop_pointwise_full MAX_PROCESSES (schedulerBody now) (fun t => t.processes)
    (fun t a => { t with processes := a }) (touchIfOccupied now) (schedulerBody_eq now)
    (fun _ _ => rfl) (fun _ _ _ => rfl) (fun _ => rfl)]

theorem generate_security_token_eq (k : MobileOSKernel) (rand : Nat → Nat) (now : Nat) :
    generate_security_token k rand now = { k with system_token := freshToken rand now } := by
  simp only [generate_security_token]
  rw [forLoop_pointwise_full SECURITY_TOKEN_LENGTH (tokenBody rand)
    (fun t => t.system_token.token)
    (fun t a => { t with system_token := { t.system_token with token := a } })
    (fun j _ => rand j.val % 256) (fun _ _ => rfl)
    (fun _ _ => rfl) (fun _ _ _ => rfl) (fun _ => rfl)]
  rfl

/-! ## Loops that return at the first matching slot -/

theorem forLoopRet_none {ρ σ : Type} (n : Nat) (body : Fin n → σ → LoopResult ρ σ) (s : σ) :
    ∀ (m : Nat) (h : m ≤ n), (∀ j : Fin n, j.val < m → body j s = .running s) →
      forLoopRet n body m h s = .running s := by
  intro m
  induction m with
  | zero => intro _ _; rfl
  | succ m ih =>
    intro h hrun
    simp only [forLoopRet]
    rw [ih (Nat.le_of_succ_le h) (fun j hj => hrun j (Nat.lt_succ_of_lt hj))]
    exact hrun ⟨m, h⟩ (Nat.lt_succ_self m)

theorem forLoopRet_first {ρ σ : Type} (n : Nat) (body : Fin n → σ → LoopResult ρ σ) (s : σ)
    (i : Fin n) (r : ρ) (t : σ) (hi : body i s = .returned r t)
    (hrun : ∀ j : Fin n, j.val < i.val → body j s = .running s) :
    ∀ (m : Nat) (h : m ≤ n), i.val < m → forLoopRet n body m h s = .returned r t := by
  intro m
  induction m with
  | zero => intro _ hm; exact absurd hm (Nat.not_lt_zero _)
  | succ m ih =>
    intro h hm
    simp only [forLoopRet]
    by_cases hlt : i.val < m
    · rw [ih (Nat.le_of_succ_le h) hlt]
    · have hmi : m = i.val := by omega
      subst hmi
      rw [forLoopRet_none n body s i.val (Nat.le_of_succ_le h) hrun]
      exact hi

/-- Either no index satisfies `p`, or there is a first one. -/
theorem first_index_cases (n : Nat) (p : Fin n → Prop) :
    (∀ j : Fin n, ¬ p j) ∨ ∃ i : Fin n, p i ∧ ∀ j : Fin n, j.val < i.val → ¬ p j := by
  classical
  by_cases hex : ∃ m : Nat, ∃ h : m < n, p ⟨m, h⟩
  · right
    obtain ⟨hlt, hp⟩ := Nat.find_spec hex
    refine ⟨⟨Nat.find hex, hlt⟩, hp, ?_⟩
    intro j hj hpj
    exact Nat.find_min hex hj ⟨j.isLt, hpj⟩
  · left
    intro j hpj
    exact hex ⟨j.val, j.isLt, hpj⟩

/-! ## Sensor registration -/

theorem register_sensor_first (k : MobileOSKernel) (type : SensorType) (sampling_rate buf : Nat)
    (i : Fin MAX_SENSORS) (hi : (k.sensors i).is_active = false)
    (hbefore : ∀ j : Fin MAX_SENSORS, j.val < i.val → (k.sensors j).is_active = true) :
    register_sensor k type sampling_rate buf =
      (true, registeredKernel k i type sampling_rate buf) := by
  unfold register_sensor
  rw [forLoopRet_first MAX_SENSORS (registerSensorBody type sampling_rate buf) k i true
    (registeredKernel k i type sampling_rate buf)
    (by simp [registerSensorBody, hi, newSensor, registeredKernel])
    (fun j hj => by simp [registerSensorBody, hbefore j hj])
    MAX_SENSORS (Nat.le_refl _) i.isLt]

theorem register_sensor_full (k : MobileOSKernel) (type : SensorType) (sampling_rate buf : Nat)
    (hall : ∀ j : Fin MAX_SENSORS, (k.sensors j).is_active = true) :
    register_sensor k type sampling_rate buf = (false, k) := by
  unfold register_sensor
  rw [forLoopRet_none MAX_SENSORS (registerSensorBody type sampling_rate buf) k
    MAX_SENSORS (Nat.le_refl _) (fun j _ => by simp [registerSensorBody, hall j])]

/-! ## Process creation -/

theorem withPermissions_self (k : MobileOSKernel) (i : Fin MAX_PROCESSES) :
    withPermissions k i (k.processes i).permissions = k := by
  unfold withPermissions
  simp only [Function.update_eq_self]

theorem permission_loop (required_permissions : List AppPermission) (i : Fin MAX_PROCESSES)
    (permission_count : Nat) (k : MobileOSKernel) (m : Nat) (h : m ≤ permission_count) :
    forLoop permission_count (setPermissionBody required_permissions i permission_count) m h k =
      withPermissions k i (fun q =>
        (k.processes i).permissions q || grantedBy (required_permissions.take m) q) := by
  refine forLoop_invariant permission_count
    (setPermissionBody required_permissions i permission_count)
    (fun m t => t = withPermissions k i (fun q =>
        (k.processes i).permissions q || grantedBy (required_permissions.take m) q)) k ?_ ?_ m h
  · simp only [List.take_zero, grantedBy, List.any_nil, Bool.or_false]
    exact (withPermissions_self k i).symm
  · intro j t ht
    subst ht
    unfold setPermissionBody
    cases hget : required_permissions.get? j.val with
    | none =>
      have hlen : required_permissions.length ≤ j.val := by
        rw [List.get?_eq_getElem?] at hget
        exact List.getElem?_eq_none_iff.mp hget
      simp only
      rw [List.take_of_length_le hlen, List.take_of_length_le (Nat.le_succ_of_le hlen)]
    | some p =>
      have htake : required_permissions.take (j.val + 1) =
          required_permissions.take j.val ++ [p] := by
        rw [List.get?_eq_getElem?] at hget
        rw [List.take_succ, hget]
        rfl
      have hperm : Function.update (fun q => (k.processes i).permissions q ||
            grantedBy (required_permissions.take j.val) q) p.index true =
          fun q => (k.processes i).permissions q ||
            grantedBy (required_permissions.take j.val ++ [p]) q := by
        funext q
        by_cases hq : q = p.index
        · subst hq
          simp [grantedBy]
        · rw [Function.update_noteq hq]
          have : (p.index == q) = false := by
            simp only [beq_eq_false_iff_ne, ne_eq]
            exact fun e => hq e.symm
          simp [grantedBy, this]
      simp only [htake]
      unfold withPermissions
      simp only [Function.update_same, Function.update_idem, hperm]

theorem createProcessBody_free (process_name : List Nat) (priority : Nat)
    (required_permissions : List AppPermission) (permission_count now : Nat)
    (i : Fin MAX_PROCESSES) (k : MobileOSKernel) (hi : (k.processes i).pid = 0) :
    createProcessBody process_name priority required_permissions permission_count now i k =
      .returned (i.val + 1)
        (createdKernel k i process_name priority required_permissions permission_count now) := by
  unfold createProcessBody
  simp only [hi, if_true, permission_loop]
  unfold withPermissions createdKernel createdSlot
  simp only [Function.update_same, Function.update_idem]

theorem createProcessBody_used (process_name : List Nat) (priority : Nat)
    (required_permissions : List AppPermission) (permission_count now : Nat)
    (i : Fin MAX_PROCESSES) (k : MobileOSKernel) (hi : (k.processes i).pid ≠ 0) :
    createProcessBody process_name priority required_permissions permission_count now i k =
      .running k := by
  unfold createProcessBody
  simp only [hi, if_false]

theorem create_process_first (k : MobileOSKernel) (process_name : List Nat) (priority : Nat)
    (required_permissions : List AppPermission) (permission_count now : Nat)
    (i : Fin MAX_PROCESSES) (hi : (k.processes i).pid = 0)
    (hbefore : ∀ j : Fin MAX_PROCESSES, j.val < i.val → (k.processes j).pid ≠ 0) :
    create_process k process_name priority required_permissions permission_count now =
      (i.val + 1,
        createdKernel k i process_name priority required_permissions permission_count now) := by
  unfold create_process
  rw [forLoopRet_first MAX_PROCESSES _ k i _ _
    (createProcessBody_free process_name priority required_permissions permission_count now i k hi)
    (fun j hj => createProcessBody_used process_name priority required_permissions
      permission_count now j k (hbefore j hj))
    MAX_PROCESSES (Nat.le_refl _) i.isLt]

theorem create_process_full (k : MobileOSKernel) (process_name : List Nat) (priority : Nat)
    (required_permissions : List AppPermission) (permission_count now : Nat)
    (hall : ∀ j : Fin MAX_PROCESSES, (k.processes j).pid ≠ 0) :
    create_process k process_name priority required_permissions permission_count now = (0, k) := by
  unfold create_process
  rw [forLoopRet_none MAX_PROCESSES _ k MAX_PROCESSES (Nat.le_refl _)
    (fun j _ => createProcessBody_used process_name priority required_permissions
      permission_count now j k (hall j))]

theorem createCall_occupied (k : MobileOSKernel) (n : Nat) (hk : OccupiedPrefix k n)
    (a : CreateArgs) (hn : n < MAX_PROCESSES) :
    (createCall k a).1 = n + 1 ∧ OccupiedPrefix (createCall k a).2 (n + 1) := by
  have hfree : (k.processes ⟨n, hn⟩).pid = 0 := by
    rw [hk ⟨n, hn⟩]; simp
  have hused : ∀ j : Fin MAX_PROCESSES, j.val < n → (k.processes j).pid ≠ 0 := by
    intro j hj
    rw [hk j]; simp [hj]
  unfold createCall
  rw [create_process_first k _ _ _ _ _ ⟨n, hn⟩ hfree hused]
  refine ⟨rfl, ?_⟩
  intro j
  by_cases hj : j = ⟨n, hn⟩
  · subst hj
    simp [createdKernel, createdSlot]
  · have hne : j.val ≠ n := fun e => hj (Fin.ext e)
    simp only [createdKernel, Function.update_noteq hj]
    rw [hk j]
    by_cases hlt : j.val < n
    · simp [hlt, Nat.lt_succ_of_lt hlt]
    · have : ¬ j.val < n + 1 := by omega
      simp [hlt, this]

theorem createAll_occupied (as : List CreateArgs) :
    ∀ (k : MobileOSKernel) (n : Nat), OccupiedPrefix k n → n + as.length ≤ MAX_PROCESSES →
      OccupiedPrefix (createAll k as) (n + as.length) := by
  induction as with
  | nil => intro k n hk _; exact hk
  | cons a rest ih =>
    intro k n hk hlen
    simp only [List.length_cons] at hlen
    have hn : n < MAX_PROCESSES := by omega
    have h1 := (createCall_occupied k n hk a hn).2
    have h2 := ih (createCall k a).2 (n + 1) h1 (by omega)
    have e1 : createAll k (a :: rest) = createAll (createCall k a).2 rest := rfl
    have e2 : n + (a :: rest).length = n + 1 + rest.length := by
      rw [List.length_cons]; omega
    rw [e1, e2]
    exact h2

theorem initialize_occupied (rand : Nat → Nat) (now : Nat) :
    OccupiedPrefix (initialize_mobile_os rand now) 0 := by
  intro j
  simp [initialize_mobile_os, generate_security_token_eq, zeroKernel, zeroProcess]

theorem registerCall_active (k : MobileOSKernel) (n : Nat) (hk : ActivePrefix k n)
    (a : RegisterArgs) (hn : n < MAX_SENSORS) :
    registerCall k a = (true, registeredKernel k ⟨n, hn⟩ a.type a.sampling_rate a.buf) ∧
    ActivePrefix (registerCall k a).2 (n + 1) := by
  have hfree : (k.sensors ⟨n, hn⟩).is_active = false := by
    rw [hk ⟨n, hn⟩]; simp
  have hused : ∀ j : Fin MAX_SENSORS, j.val < n → (k.sensors j).is_active = true := by
    intro j hj
    rw [hk j]; simp [hj]
  have hcall := register_sensor_first k a.type a.sampling_rate a.buf ⟨n, hn⟩ hfree hused
  unfold registerCall
  rw [hcall]
  refine ⟨rfl, ?_⟩
  intro j
  by_cases hj : j = ⟨n, hn⟩
  · subst hj
    simp [newSensor, registeredKernel]
  · have hne : j.val ≠ n := fun e => hj (Fin.ext e)
    simp only [registeredKernel, Function.update_noteq hj]
    rw [hk j]
    by_cases hlt : j.val < n
    · simp [hlt, Nat.lt_succ_of_lt hlt]
    · have : ¬ j.val < n + 1 := by omega
      simp [hlt, this]

theorem registerAll_active (as : List RegisterArgs) :
    ∀ (k : MobileOSKernel) (n : Nat), ActivePrefix k n → n + as.length ≤ MAX_SENSORS →
      ActivePrefix (registerAll k as) (n + as.length) := by
  induction as with
  | nil => intro k n hk _; exact hk
  | cons a rest ih =>
    intro k n hk hlen
    simp only [List.length_cons] at hlen
    have hn : n < MAX_SENSORS := by omega
    have h1 := (registerCall_active k n hk a hn).2
    have h2 := ih (registerCall k a).2 (n + 1) h1 (by omega)
    have e1 : registerAll k (a :: rest) = registerAll (registerCall k a).2 rest := rfl
    have e2 : n + (a :: rest).length = n + 1 + rest.length := by
      rw [List.length_cons]; omega
    rw [e1, e2]
    exact h2

theorem initialize_active (rand : Nat → Nat) (now : Nat) :
    ActivePrefix (initialize_mobile_os rand now) 0 := by
  intro j
  simp [initialize_mobile_os, generate_security_token_eq, zeroKernel, zeroSensor]

/-! ## Loops that return early along a known trace of states -/

theorem forLoopRet_trace_running {ρ σ : Type} (n : Nat) (body : Fin n → σ → LoopResult ρ σ)
    (st : Nat → σ) :
    ∀ (m : Nat) (h : m ≤ n),
      (∀ j : Fin n, j.val < m → body j (st j.val) = .running (st (j.val + 1))) →
      forLoopRet n body m h (st 0) = .running (st m) := by
  intro m
  induction m with
  | zero => intro _ _; rfl
  | succ m ih =>
    intro h hrun
    simp only [forLoopRet]
    rw [ih (Nat.le_of_succ_le h) (fun j hj => hrun j (Nat.lt_succ_of_lt hj))]
    exact hrun ⟨m, h⟩ (Nat.lt_succ_self m)

theorem forLoopRet_trace_returned {ρ σ : Type} (n : Nat) (body : Fin n → σ → LoopResult ρ σ)
    (st : Nat → σ) (i : Fin n) (r : ρ) (t : σ) (hi : body i (st i.val) = .returned r t)
    (hrun : ∀ j : Fin n, j.val < i.val → body j (st j.val) = .running (st (j.val + 1))) :
    ∀ (m : Nat) (h : m ≤ n), i.val < m → forLoopRet n body m h (st 0) = .returned r t := by
  intro m
  induction m with
  | zero => intro _ hm; exact absurd hm (Nat.not_lt_zero _)
  | succ m ih =>
    intro h hm
    simp only [forLoopRet]
    by_cases hlt : i.val < m
    · rw [ih (Nat.le_of_succ_le h) hlt]
    · have hmi : m = i.val := by omega
      subst hmi
      rw [forLoopRet_trace_running n body st i.val (Nat.le_of_succ_le h) hrun]
      exact hi

/-! ## Memory allocation -/

theorem reclaimSlot_of_zero (p : EnhancedProcessControlBlock) (h : suspendedUsage p = 0) :
    reclaimSlot p = p := by
  unfold reclaimSlot
  unfold suspendedUsage at h
  split
  · rename_i hs
    rw [if_pos hs] at h
    cases p
    simp_all
  · rfl

theorem reclaimedPrefix_zero (k : MobileOSKernel) : reclaimedPrefix k 0 = k := by
  unfold reclaimedPrefix
  simp [availAfter]

theorem reclaimedPrefix_processes_succ (k : MobileOSKernel) (j : Fin MAX_PROCESSES) :
    Function.update (reclaimedPrefix k j.val).processes j (reclaimSlot (k.processes j)) =
      (reclaimedPrefix k (j.val + 1)).processes := by
  funext q
  unfold reclaimedPrefix
  by_cases hq : q = j
  · subst hq
    simp
  · have hne : q.val ≠ j.val := fun e => hq (Fin.ext e)
    rw [Function.update_noteq hq]
    by_cases hlt : q.val < j.val
    · have h2 : q.val < j.val + 1 := Nat.lt_succ_of_lt hlt
      simp only [hlt, h2, if_true]
    · have h2 : ¬ q.val < j.val + 1 := by omega
      simp only [hlt, h2, if_false]

theorem free_of_pos (heap : Heap) (p : Nat) (hp : p > 0) :
    free heap p = if heap p then some (release heap p) else none := by
  unfold free
  rw [if_neg (Nat.ne_of_gt hp)]

theorem heapAfter_zero (heap : Heap) (k : MobileOSKernel) : heapAfter heap k 0 = heap := rfl

theorem heapAfter_succ (heap : Heap) (k : MobileOSKernel) (j : Fin MAX_PROCESSES) :
    heapAfter heap k (j.val + 1) =
      if suspendedUsage (k.processes j) > 0 then
        release (heapAfter heap k j.val) (k.processes j).memory_usage
      else heapAfter heap k j.val := by
  simp only [heapAfter, j.isLt, dite_true, Fin.eta]

theorem reclaimBody_step (heap : Heap) (k : MobileOSKernel) (requested_size handle : Nat)
    (j : Fin MAX_PROCESSES) :
    reclaimBody requested_size handle j (reclaimedPrefix k j.val, heapAfter heap k j.val) =
      if suspendedUsage (k.processes j) > 0 ∧
          heapAfter heap k j.val (k.processes j).memory_usage = false then
        .returned none (reclaimedPrefix k j.val, heapAfter heap k j.val)
      else if suspendedUsage (k.processes j) > 0 ∧
          requested_size ≤ availAfter k (j.val + 1) then
        .returned (some handle)
          (allocatedAfter k (j.val + 1) requested_size, heapAfter heap k (j.val + 1))
      else .running (reclaimedPrefix k (j.val + 1), heapAfter heap k (j.val + 1)) := by
  have hslot : (reclaimedPrefix k j.val).processes j = k.processes j := by
    simp [reclaimedPrefix]
  have havail : (reclaimedPrefix k j.val).available_memory = availAfter k j.val := rfl
  have hsucc := reclaimedPrefix_processes_succ k j
  have hheap := heapAfter_succ heap k j
  unfold reclaimBody
  simp only [hslot, havail]
  by_cases hs : (k.processes j).power_state = .POWER_SUSPEND
  · rw [if_pos hs]
    by_cases hu : (k.processes j).memory_usage > 0
    · have husage : suspendedUsage (k.processes j) = (k.processes j).memory_usage := by
        simp [suspendedUsage, hs]
      have hupos : suspendedUsage (k.processes j) > 0 := by rw [husage]; exact hu
      have hnext : availAfter k (j.val + 1) =
          (availAfter k j.val + (k.processes j).memory_usage) % U32 := by
        simp only [availAfter, j.isLt, dite_true, Fin.eta, husage, hu, if_true]
      have hrec : reclaimSlot (k.processes j) = { k.processes j with memory_usage := 0 } := by
        simp [reclaimSlot, hs]
      rw [hrec] at hsucc
      rw [if_pos hupos] at hheap
      rw [if_pos hu, free_of_pos _ _ hu]
      cases hlive : heapAfter heap k j.val (k.processes j).memory_usage
      · have hc : suspendedUsage (k.processes j) > 0 ∧ false = false := ⟨hupos, rfl⟩
        rw [if_pos hc]
        simp only [Bool.false_eq_true, if_false]
      · have hc : ¬ (suspendedUsage (k.processes j) > 0 ∧ true = false) :=
          fun h => Bool.noConfusion h.2
        rw [if_neg hc]
        simp only [if_true]
        by_cases hfit : requested_size ≤ availAfter k (j.val + 1)
        · have h1 : suspendedUsage (k.processes j) > 0 ∧
              requested_size ≤ availAfter k (j.val + 1) := ⟨hupos, hfit⟩
          have h2 : (availAfter k j.val + (k.processes j).memory_usage) % U32 ≥
              requested_size := by rw [← hnext]; exact hfit
          rw [if_pos h1, if_pos h2]
          congr 1
          refine Prod.ext ?_ hheap.symm
          unfold allocatedAfter
          ext1
          · exact hsucc
          · rfl
          · rfl
          · rfl
          · rfl
          · simp only [hnext]
        · have h1 : ¬ (suspendedUsage (k.processes j) > 0 ∧
              requested_size ≤ availAfter k (j.val + 1)) := fun h => hfit h.2
          have h2 : ¬ (availAfter k j.val + (k.processes j).memory_usage) % U32 ≥
              requested_size := by rw [← hnext]; exact hfit
          rw [if_neg h1, if_neg h2]
          congr 1
          refine Prod.ext ?_ hheap.symm
          ext1
          · exact hsucc
          · rfl
          · rfl
          · rfl
          · rfl
          · simp only [reclaimedPrefix, hnext]
    · have husage : suspendedUsage (k.processes j) = 0 := by
        simp only [suspendedUsage, hs, if_true]; omega
      have hnot : ¬ suspendedUsage (k.processes j) > 0 := by rw [husage]; exact Nat.lt_irrefl 0
      have hnext : availAfter k (j.val + 1) = availAfter k j.val := by
        simp [availAfter, j.isLt, husage]
      rw [reclaimSlot_of_zero _ husage, ← hslot, Function.update_eq_self] at hsucc
      rw [if_neg hnot] at hheap
      have h1 : ¬ (suspendedUsage (k.processes j) > 0 ∧
          heapAfter heap k j.val (k.processes j).memory_usage = false) := fun h => hnot h.1
      have h2 : ¬ (suspendedUsage (k.processes j) > 0 ∧
          requested_size ≤ availAfter k (j.val + 1)) := fun h => hnot h.1
      rw [if_neg hu, if_neg h1, if_neg h2]
      congr 1
      refine Prod.ext ?_ hheap.symm
      ext1
      · exact hsucc
      · rfl
      · rfl
      · rfl
      · rfl
      · simp only [reclaimedPrefix, hnext]
  · have husage : suspendedUsage (k.processes j) = 0 := by
      simp [suspendedUsage, hs]
    have hnot : ¬ suspendedUsage (k.processes j) > 0 := by rw [husage]; exact Nat.lt_irrefl 0
    have hnext : availAfter k (j.val + 1) = availAfter k j.val := by
      simp [availAfter, j.isLt, husage]
    rw [reclaimSlot_of_zero _ husage, ← hslot, Function.update_eq_self] at hsucc
    rw [if_neg hnot] at hheap
    have h1 : ¬ (suspendedUsage (k.processes j) > 0 ∧
        heapAfter heap k j.val (k.processes j).memory_usage = false) := fun h => hnot h.1
    have h2 : ¬ (suspendedUsage (k.processes j) > 0 ∧
        requested_size ≤ availAfter k (j.val + 1)) := fun h => hnot h.1
    rw [if_neg hs, if_neg h1, if_neg h2]
    congr 1
    refine Prod.ext ?_ hheap.symm
    ext1
    · exact hsucc
    · rfl
    · rfl
    · rfl
    · rfl
    · simp only [reclaimedPrefix, hnext]

theorem alloc_fit (k : MobileOSKernel) (requested_size handle : Nat) (heap : Heap)
    (h : requested_size ≤ k.available_memory) :
    adaptive_memory_allocation k requested_size handle heap =
      some (handle, allocatedDirect k requested_size) := by
  unfold adaptive_memory_allocation
  rw [if_pos h]
  rfl

theorem reclaimBody_continues (heap : Heap) (k : MobileOSKernel)
    (requested_size handle : Nat) (j : Fin MAX_PROCESSES)
    (h : ¬ reclaimStop heap k requested_size j) :
    reclaimBody requested_size handle j (reclaimedPrefix k j.val, heapAfter heap k j.val) =
      .running (reclaimedPrefix k (j.val + 1), heapAfter heap k (j.val + 1)) := by
  have h1 : ¬ (suspendedUsage (k.processes j) > 0 ∧
      heapAfter heap k j.val (k.processes j).memory_usage = false) := fun c => h (Or.inl c)
  have h2 : ¬ (suspendedUsage (k.processes j) > 0 ∧
      requested_size ≤ availAfter k (j.val + 1)) := fun c => h (Or.inr c)
  rw [reclaimBody_step, if_neg h1, if_neg h2]

theorem alloc_reclaim_crash (k : MobileOSKernel) (requested_size handle : Nat) (heap : Heap)
    (h : k.available_memory < requested_size) (i : Fin MAX_PROCESSES)
    (hi : reclaimCrash heap k i)
    (hbefore : ∀ j : Fin MAX_PROCESSES, j.val < i.val → ¬ reclaimStop heap k requested_size j) :
    adaptive_memory_allocation k requested_size handle heap = none := by
  unfold adaptive_memory_allocation
  rw [if_neg (Nat.not_le_of_lt h)]
  have hbody : reclaimBody requested_size handle i
      (reclaimedPrefix k i.val, heapAfter heap k i.val) =
      .returned none (reclaimedPrefix k i.val, heapAfter heap k i.val) := by
    rw [reclaimBody_step]
    exact if_pos hi
  have htrace := forLoopRet_trace_returned MAX_PROCESSES (reclaimBody requested_size handle)
    (fun m => (reclaimedPrefix k m, heapAfter heap k m)) i none _ hbody
    (fun j hj => reclaimBody_continues heap k requested_size handle j (hbefore j hj))
    MAX_PROCESSES (Nat.le_refl _) i.isLt
  simp only [reclaimedPrefix_zero, heapAfter_zero] at htrace
  rw [htrace]

theorem alloc_reclaim_hit (k : MobileOSKernel) (requested_size handle : Nat) (heap : Heap)
    (h : k.available_memory < requested_size) (i : Fin MAX_PROCESSES)
    (hi : reclaimHit k requested_size i) (hlive : ¬ reclaimCrash heap k i)
    (hbefore : ∀ j : Fin MAX_PROCESSES, j.val < i.val → ¬ reclaimStop heap k requested_size j) :
    adaptive_memory_allocation k requested_size handle heap =
      some (handle, allocatedAfter k (i.val + 1) requested_size) := by
  unfold adaptive_memory_allocation
  rw [if_neg (Nat.not_le_of_lt h)]
  have hbody : reclaimBody requested_size handle i
      (reclaimedPrefix k i.val, heapAfter heap k i.val) =
      .returned (some handle)
        (allocatedAfter k (i.val + 1) requested_size, heapAfter heap k (i.val + 1)) := by
    have h1 : ¬ (suspendedUsage (k.processes i) > 0 ∧
        heapAfter heap k i.val (k.processes i).memory_usage = false) := hlive
    have h2 : suspendedUsage (k.processes i) > 0 ∧
        requested_size ≤ availAfter k (i.val + 1) := hi
    rw [reclaimBody_step, if_neg h1, if_pos h2]
  have htrace := forLoopRet_trace_returned MAX_PROCESSES (reclaimBody requested_size handle)
    (fun m => (reclaimedPrefix k m, heapAfter heap k m)) i (some handle) _ hbody
    (fun j hj => reclaimBody_continues heap k requested_size handle j (hbefore j hj))
    MAX_PROCESSES (Nat.le_refl _) i.isLt
  simp only [reclaimedPrefix_zero, heapAfter_zero] at htrace
  rw [htrace]

theorem alloc_reclaim_miss (k : MobileOSKernel) (requested_size handle : Nat) (heap : Heap)
    (h : k.available_memory < requested_size)
    (hnone : ∀ j : Fin MAX_PROCESSES, ¬ reclaimStop heap k requested_size j) :
    adaptive_memory_allocation k requested_size handle heap =
      some (0, reclaimedPrefix k MAX_PROCESSES) := by
  unfold adaptive_memory_allocation
  rw [if_neg (Nat.not_le_of_lt h)]
  have htrace := forLoopRet_trace_running MAX_PROCESSES (reclaimBody requested_size handle)
    (fun m => (reclaimedPrefix k m, heapAfter heap k m)) MAX_PROCESSES (Nat.le_refl _)
    (fun j _ => reclaimBody_continues heap k requested_size handle j (hnone j))
  simp only [reclaimedPrefix_zero, heapAfter_zero] at htrace
  rw [htrace]

/-- The four ways `adaptive_memory_allocation` can run, the undefined one with the iteration
that frees an address that is not a live block. -/
theorem alloc_cases_stop (k : MobileOSKernel) (requested_size handle : Nat) (heap : Heap) :
    (k.available_memory < requested_size ∧ ∃ i : Fin MAX_PROCESSES,
      reclaimCrash heap k i ∧
      adaptive_memory_allocation k requested_size handle heap = none) ∨
    (requested_size ≤ k.available_memory ∧
      adaptive_memory_allocation k requested_size handle heap =
        some (handle, allocatedDirect k requested_size)) ∨
    (k.available_memory < requested_size ∧ ∃ i : Fin MAX_PROCESSES,
      reclaimHit k requested_size i ∧
      adaptive_memory_allocation k requested_size handle heap =
        some (handle, allocatedAfter k (i.val + 1) requested_size)) ∨
    (k.available_memory < requested_size ∧
      (∀ j : Fin MAX_PROCESSES, ¬ reclaimHit k requested_size j) ∧
      adaptive_memory_allocation k requested_size handle heap =
        some (0, reclaimedPrefix k MAX_PROCESSES)) := by
  by_cases h : requested_size ≤ k.available_memory
  · exact Or.inr (Or.inl ⟨h, alloc_fit k requested_size handle heap h⟩)
  · have hlt : k.available_memory < requested_size := Nat.lt_of_not_le h
    rcases first_index_cases MAX_PROCESSES (reclaimStop heap k requested_size)
      with hnone | ⟨i, hi, hb⟩
    · exact Or.inr (Or.inr (Or.inr ⟨hlt, fun j c => hnone j (Or.inr c),
        alloc_reclaim_miss k requested_size handle heap hlt hnone⟩))
    · by_cases hc : reclaimCrash heap k i
      · exact Or.inl ⟨hlt, i, hc, alloc_reclaim_crash k requested_size handle heap hlt i hc hb⟩
      · have hhit : reclaimHit k requested_size i := hi.resolve_left hc
        exact Or.inr (Or.inr (Or.inl ⟨hlt, i, hhit,
          alloc_reclaim_hit k requested_size handle heap hlt i hhit hc hb⟩))

/-- The four ways `adaptive_memory_allocation` can run. -/
theorem alloc_cases (k : MobileOSKernel) (requested_size handle : Nat) (heap : Heap) :
    adaptive_memory_allocation k requested_size handle heap = none ∨
    (requested_size ≤ k.available_memory ∧
      adaptive_memory_allocation k requested_size handle heap =
        some (handle, allocatedDirect k requested_size)) ∨
    (k.available_memory < requested_size ∧ ∃ i : Fin MAX_PROCESSES,
      reclaimHit k requested_size i ∧
      adaptive_memory_allocation k requested_size handle heap =
        some (handle, allocatedAfter k (i.val + 1) requested_size)) ∨
    (k.available_memory < requested_size ∧
      (∀ j : Fin MAX_PROCESSES, ¬ reclaimHit k requested_size j) ∧
      adaptive_memory_allocation k requested_size handle heap =
        some (0, reclaimedPrefix k MAX_PROCESSES)) := by
  by_cases h : requested_size ≤ k.available_memory
  · exact Or.inr (Or.inl ⟨h, alloc_fit k requested_size handle heap h⟩)
  · have hlt : k.available_memory < requested_size := Nat.lt_of_not_le h
    rcases first_index_cases MAX_PROCESSES (reclaimStop heap k requested_size)
      with hnone | ⟨i, hi, hb⟩
    · exact Or.inr (Or.inr (Or.inr ⟨hlt, fun j c => hnone j (Or.inr c),
        alloc_reclaim_miss k requested_size handle heap hlt hnone⟩))
    · by_cases hc : reclaimCrash heap k i
      · exact Or.inl (alloc_reclaim_crash k requested_size handle heap hlt i hc hb)
      · have hhit : reclaimHit k requested_size i := hi.resolve_left hc
        exact Or.inr (Or.inr (Or.inl ⟨hlt, i, hhit,
          alloc_reclaim_hit k requested_size handle heap hlt i hhit hc hb⟩))

/-- The call returns when no iteration of the reclamation loop frees an address that is not
a live block. -/
theorem alloc_defined_of_live_blocks (k : MobileOSKernel) (requested_size handle : Nat)
    (heap : Heap) (hlive : ∀ j : Fin MAX_PROCESSES, ¬ reclaimCrash heap k j) :
    ∃ (r : Nat) (k1 : MobileOSKernel),
      adaptive_memory_allocation k requested_size handle heap = some (r, k1) := by
  rcases alloc_cases_stop k requested_size handle heap with
    ⟨_, i, hc, _⟩ | ⟨_, h⟩ | ⟨_, i, _, h⟩ | ⟨_, _, h⟩
  · exact absurd hc (hlive i)
  · exact ⟨_, _, h⟩
  · exact ⟨_, _, h⟩
  · exact ⟨_, _, h⟩

theorem suspendedSum_succ (procs : Fin MAX_PROCESSES → EnhancedProcessControlBlock)
    (j : Fin MAX_PROCESSES) :
    suspendedSum procs (j.val + 1) = suspendedSum procs j.val + suspendedUsage (procs j) := by
  simp only [suspendedSum, j.isLt, dite_true, Fin.eta]

theorem suspendedSum_mono (procs : Fin MAX_PROCESSES → EnhancedProcessControlBlock) (m : Nat) :
    suspendedSum procs m ≤ suspendedSum procs (m + 1) := by
  simp only [suspendedSum]
  exact Nat.le_add_right _ _

/-- The counter after passing the slots `< m`: untouched while nothing was reclaimed, else the
32-bit sum of the old value and everything reclaimed. -/
theorem availAfter_eq (k : MobileOSKernel) (m : Nat) :
    availAfter k m =
      if suspendedSum k.processes m = 0 then k.available_memory
      else (k.available_memory + suspendedSum k.processes m) % U32 := by
  induction m with
  | zero => simp [availAfter, suspendedSum]
  | succ m ih =>
    by_cases hm : m < MAX_PROCESSES
    · simp only [availAfter, suspendedSum, hm, dite_true]
      by_cases hu : suspendedUsage (k.processes ⟨m, hm⟩) > 0
      · rw [if_pos hu, ih]
        have hne : ¬ suspendedSum k.processes m + suspendedUsage (k.processes ⟨m, hm⟩) = 0 := by
          omega
        rw [if_neg hne]
        by_cases h0 : suspendedSum k.processes m = 0
        · rw [if_pos h0, h0, Nat.zero_add]
        · rw [if_neg h0, Nat.mod_add_mod, Nat.add_assoc]
      · have hu0 : suspendedUsage (k.processes ⟨m, hm⟩) = 0 := by omega
        rw [if_neg hu, ih, hu0, Nat.add_zero]
    · simp only [availAfter, suspendedSum, hm, dite_false, Nat.add_zero]
      exact ih

theorem availAfter_of_fits (k : MobileOSKernel) (m : Nat)
    (h32 : k.available_memory + suspendedSum k.processes m < U32) :
    availAfter k m = k.available_memory + suspendedSum k.processes m := by
  rw [availAfter_eq]
  by_cases h0 : suspendedSum k.processes m = 0
  · rw [if_pos h0, h0, Nat.add_zero]
  · rw [if_neg h0, Nat.mod_eq_of_lt h32]

theorem suspendedSum_le_of_le (procs : Fin MAX_PROCESSES → EnhancedProcessControlBlock)
    (a b : Nat) (hab : a ≤ b) : suspendedSum procs a ≤ suspendedSum procs b := by
  induction b with
  | zero =>
    have : a = 0 := by omega
    subst this
    exact Nat.le_refl _
  | succ b ih =>
    by_cases h : a = b + 1
    · subst h; exact Nat.le_refl _
    · exact Nat.le_trans (ih (by omega)) (suspendedSum_mono procs b)

theorem reclaimSlot_memory_usage (p : EnhancedProcessControlBlock) :
    (reclaimSlot p).memory_usage = if p.power_state = .POWER_SUSPEND then 0 else p.memory_usage
    := by
  unfold reclaimSlot
  split <;> rfl

theorem suspendedSum_of_no_suspended_usage
    (procs : Fin MAX_PROCESSES → EnhancedProcessControlBlock)
    (h : ∀ j, suspendedUsage (procs j) = 0) (m : Nat) : suspendedSum procs m = 0 := by
  induction m with
  | zero => rfl
  | succ m ih =>
    simp only [suspendedSum, ih, Nat.zero_add]
    split
    · exact h _
    · rfl

theorem suspendedUsage_of_no_reclaimable (p : EnhancedProcessControlBlock)
    (h : p.power_state = .POWER_SUSPEND → p.memory_usage = 0) : suspendedUsage p = 0 := by
  unfold suspendedUsage
  split
  · rename_i hs; exact h hs
  · rfl

theorem reclaimedPrefix_of_no_usage (k : MobileOSKernel)
    (h : ∀ j, suspendedUsage (k.processes j) = 0) (m : Nat) : reclaimedPrefix k m = k := by
  ext1
  · funext j
    simp only [reclaimedPrefix]
    split
    · exact reclaimSlot_of_zero _ (h j)
    · rfl
  · rfl
  · rfl
  · rfl
  · rfl
  · show availAfter k m = k.available_memory
    rw [availAfter_eq, if_pos (suspendedSum_of_no_suspended_usage k.processes h m)]

theorem no_reclaimStop_of_no_usage (heap : Heap) (k : MobileOSKernel) (requested_size : Nat)
    (h : ∀ j, suspendedUsage (k.processes j) = 0) (j : Fin MAX_PROCESSES) :
    ¬ reclaimStop heap k requested_size j := by
  intro hstop
  have hpos : suspendedUsage (k.processes j) > 0 := by
    rcases hstop with hc | hh
    · exact hc.1
    · exact hh.1
  rw [h j] at hpos
  exact Nat.lt_irrefl 0 hpos

/-- When the request does not fit and nothing can be reclaimed, no block is freed, the call
returns 0 and the kernel is the one it started from. -/
theorem alloc_nothing_to_reclaim (k : MobileOSKernel) (requested_size handle : Nat)
    (heap : Heap) (hshort : k.available_memory < requested_size)
    (h : ∀ j, suspendedUsage (k.processes j) = 0) :
    adaptive_memory_allocation k requested_size handle heap = some (0, k) := by
  rw [alloc_reclaim_miss k requested_size handle heap hshort
    (no_reclaimStop_of_no_usage heap k requested_size h), reclaimedPrefix_of_no_usage k h]

/-- The slot `j` after a call that returned: the old slot, or the old slot reclaimed. -/
theorem alloc_slot (k : MobileOSKernel) (requested_size handle : Nat) (heap : Heap) (r : Nat)
    (k1 : MobileOSKernel)
    (h : adaptive_memory_allocation k requested_size handle heap = some (r, k1))
    (j : Fin MAX_PROCESSES) :
    k1.processes j = k.processes j ∨ k1.processes j = reclaimSlot (k.processes j) := by
  rcases alloc_cases k requested_size handle heap with e | ⟨_, e⟩ | ⟨_, i, _, e⟩ | ⟨_, _, e⟩
  · rw [e] at h; exact Option.noConfusion h
  · rw [e] at h
    have hk := congrArg Prod.snd (Option.some.inj h)
    simp only at hk
    subst hk
    exact Or.inl rfl
  · rw [e] at h
    have hk := congrArg Prod.snd (Option.some.inj h)
    simp only at hk
    subst hk
    simp only [allocatedAfter, reclaimedPrefix]
    split
    · exact Or.inr rfl
    · exact Or.inl rfl
  · rw [e] at h
    have hk := congrArg Prod.snd (Option.some.inj h)
    simp only at hk
    subst hk
    simp only [reclaimedPrefix]
    split
    · exact Or.inr rfl
    · exact Or.inl rfl

/-- A call that returned has written nothing but process slots and `available_memory`. -/
theorem alloc_others (k : MobileOSKernel) (requested_size handle : Nat) (heap : Heap) (r : Nat)
    (k1 : MobileOSKernel)
    (h : adaptive_memory_allocation k requested_size handle heap = some (r, k1)) :
    k1.sensors = k.sensors ∧ k1.system_token = k.system_token ∧
    k1.current_power_mode = k.current_power_mode ∧ k1.total_memory = k.total_memory := by
  rcases alloc_cases k requested_size handle heap with e | ⟨_, e⟩ | ⟨_, i, _, e⟩ | ⟨_, _, e⟩
  · rw [e] at h; exact Option.noConfusion h
  all_goals
    rw [e] at h
    have hk := congrArg Prod.snd (Option.some.inj h)
    simp only at hk
    subst hk
    exact ⟨rfl, rfl, rfl, rfl⟩

theorem run_allocate (k : MobileOSKernel) (requested_size handle : Nat) (heap : Heap)
    (k1 : MobileOSKernel)
    (h : (KernelOp.allocate requested_size handle heap).run k = some k1) :
    ∃ r, adaptive_memory_allocation k requested_size handle heap = some (r, k1) := by
  simp only [KernelOp.run] at h
  cases hres : adaptive_memory_allocation k requested_size handle heap with
  | none => rw [hres] at h; exact Option.noConfusion h
  | some p =>
    rw [hres] at h
    have hk : p.2 = k1 := Option.some.inj h
    exact ⟨p.1, by rw [← hk]⟩

/-! ## Capacity of the two tables -/

/-- C1: from the freshly initialized kernel, after `calls.length` consecutive `create_process`
calls the next one (the `N`-th, `N = calls.length + 1 ≤ 128`) returns `N` and leaves
`processes[N-1].pid = N`; after 128 calls the next one (the 129th) returns 0. -/
theorem create_process_sequence (rand : Nat → Nat) (now : Nat) (calls : List CreateArgs)
    (a : CreateArgs) :
    (calls.length < MAX_PROCESSES →
      (createCall (createAll (initialize_mobile_os rand now) calls) a).1 = calls.length + 1 ∧
      ∀ i : Fin MAX_PROCESSES, i.val = calls.length →
        ((createCall (createAll (initialize_mobile_os rand now) calls) a).2.processes i).pid =
          calls.length + 1) ∧
    (calls.length = MAX_PROCESSES →
      (createCall (createAll (initialize_mobile_os rand now) calls) a).1 = 0) := by
  constructor
  · intro hlt
    have hpre : OccupiedPrefix (createAll (initialize_mobile_os rand now) calls)
        (0 + calls.length) :=
      createAll_occupied calls _ 0 (initialize_occupied rand now) (by omega)
    rw [Nat.zero_add] at hpre
    obtain ⟨hret, hpost⟩ := createCall_occupied _ _ hpre a hlt
    refine ⟨hret, ?_⟩
    intro i hi
    rw [hpost i]
    simp [hi]
  · intro heq
    have hpre : OccupiedPrefix (createAll (initialize_mobile_os rand now) calls)
        (0 + calls.length) :=
      createAll_occupied calls _ 0 (initialize_occupied rand now) (by omega)
    rw [Nat.zero_add] at hpre
    have hall : ∀ j : Fin MAX_PROCESSES,
        ((createAll (initialize_mobile_os rand now) calls).processes j).pid ≠ 0 := by
      intro j
      rw [hpre j]
      have : j.val < calls.length := by rw [heq]; exact j.isLt
      simp [this]
    unfold createCall
    rw [create_process_full _ _ _ _ _ _ hall]

/-- C8: from the freshly initialized kernel, after `calls.length` consecutive `register_sensor`
calls the next one (the `N`-th, `N = calls.length + 1 ≤ 16`) returns true and activates slot
`N - 1` with the given kind and rate; after 16 calls the next one (the 17th) returns false. -/
theorem register_sensor_sequence (rand : Nat → Nat) (now : Nat) (calls : List RegisterArgs)
    (a : RegisterArgs) :
    (calls.length < MAX_SENSORS →
      (registerCall (registerAll (initialize_mobile_os rand now) calls) a).1 = true ∧
      ∀ i : Fin MAX_SENSORS, i.val = calls.length →
        ((registerCall (registerAll (initialize_mobile_os rand now) calls)
            a).2.sensors i).is_active = true ∧
        ((registerCall (registerAll (initialize_mobile_os rand now) calls)
            a).2.sensors i).type = a.type ∧
        ((registerCall (registerAll (initialize_mobile_os rand now) calls)
            a).2.sensors i).sampling_rate = a.sampling_rate) ∧
    (calls.length = MAX_SENSORS →
      (registerCall (registerAll (initialize_mobile_os rand now) calls) a).1 = false) := by
  have hpre : ActivePrefix (registerAll (initialize_mobile_os rand now) calls)
      (0 + calls.length) → ActivePrefix (registerAll (initialize_mobile_os rand now) calls)
      calls.length := by
    intro h; rwa [Nat.zero_add] at h
  constructor
  · intro hlt
    have hp := hpre (registerAll_active calls _ 0 (initialize_active rand now) (by omega))
    obtain ⟨hcall, _⟩ := registerCall_active _ _ hp a hlt
    rw [hcall]
    refine ⟨rfl, ?_⟩
    intro i hi
    have hie : i = ⟨calls.length, hlt⟩ := Fin.ext hi
    subst hie
    simp [newSensor, registeredKernel]
  · intro heq
    have hp := hpre (registerAll_active calls _ 0 (initialize_active rand now) (by omega))
    have hall : ∀ j : Fin MAX_SENSORS,
        ((registerAll (initialize_mobile_os rand now) calls).sensors j).is_active = true := by
      intro j
      rw [hp j]
      have : j.val < calls.length := by rw [heq]; exact j.isLt
      simp [this]
    unfold registerCall
    rw [register_sensor_full _ _ _ _ hall]

/-! ## Allocation: the contract -/

/-- C5: when `size ≤ available_memory` the allocation succeeds (the allocator's handle is
returned) and leaves the kernel with `available_memory` lowered by exactly `size` and nothing
else changed, the process table in particular. -/
theorem allocation_that_fits (k : MobileOSKernel) (requested_size handle : Nat) (heap : Heap)
    (h : requested_size ≤ k.available_memory) :
    ∃ k1 : MobileOSKernel,
      adaptive_memory_allocation k requested_size handle heap = some (handle, k1) ∧
      k1.available_memory = k.available_memory - requested_size ∧
      k1.processes = k.processes := by
  rw [alloc_fit k requested_size handle heap h]
  exact ⟨allocatedDirect k requested_size, rfl, rfl, rfl⟩

/-- What the reclamation does when every block it frees is live: if `available_memory < size`
and `i` is the least slot index at which `available_memory` plus the `memory_usage` of the
suspended slots `0..i` reaches `size` (that sum fitting in 32 bits), the call returns the
allocator's handle, `memory_usage` is 0 on the suspended slots `≤ i` and kept on the other
slots `≤ i`, every slot after `i` is unchanged, and the new `available_memory` is the old one
plus the reclaimed sum minus `size`. -/
theorem reclaim_first_fit_of_live_blocks (k : MobileOSKernel) (requested_size handle : Nat)
    (heap : Heap) (i : Fin MAX_PROCESSES)
    (hshort : k.available_memory < requested_size)
    (hfit : requested_size ≤ k.available_memory + suspendedSum k.processes (i.val + 1))
    (hleast : ∀ j : Fin MAX_PROCESSES, j.val < i.val →
      k.available_memory + suspendedSum k.processes (j.val + 1) < requested_size)
    (h32 : k.available_memory + suspendedSum k.processes (i.val + 1) < U32)
    (hlive : ∀ j : Fin MAX_PROCESSES, j.val ≤ i.val → ¬ reclaimCrash heap k j) :
    ∃ k1 : MobileOSKernel,
      adaptive_memory_allocation k requested_size handle heap = some (handle, k1) ∧
      (∀ j : Fin MAX_PROCESSES, j.val ≤ i.val →
        (k.processes j).power_state = .POWER_SUSPEND → (k1.processes j).memory_usage = 0) ∧
      (∀ j : Fin MAX_PROCESSES, j.val ≤ i.val →
        (k.processes j).power_state ≠ .POWER_SUSPEND → k1.processes j = k.processes j) ∧
      (∀ j : Fin MAX_PROCESSES, i.val < j.val → k1.processes j = k.processes j) ∧
      k1.available_memory =
        k.available_memory + suspendedSum k.processes (i.val + 1) - requested_size := by
  have hav : ∀ m, m ≤ i.val + 1 →
      availAfter k m = k.available_memory + suspendedSum k.processes m := by
    intro m hm
    apply availAfter_of_fits
    have := suspendedSum_le_of_le k.processes m (i.val + 1) hm
    omega
  have hsucc := suspendedSum_succ k.processes i
  have hpos : suspendedUsage (k.processes i) > 0 := by
    by_contra hzero
    have hz : suspendedUsage (k.processes i) = 0 := by omega
    rw [hz, Nat.add_zero] at hsucc
    rcases Nat.eq_zero_or_pos i.val with h0 | hp
    · rw [hsucc, h0] at hfit
      simp only [suspendedSum, Nat.add_zero] at hfit
      omega
    · have hj : i.val - 1 < MAX_PROCESSES := by omega
      have := hleast ⟨i.val - 1, hj⟩ (by simp only []; omega)
      have e : i.val - 1 + 1 = i.val := by omega
      simp only [e] at this
      rw [hsucc] at hfit
      omega
  have hhit : reclaimHit k requested_size i := by
    refine ⟨hpos, ?_⟩
    rw [hav (i.val + 1) (Nat.le_refl _)]
    exact hfit
  have hbefore : ∀ j : Fin MAX_PROCESSES, j.val < i.val → ¬ reclaimHit k requested_size j := by
    intro j hj hjhit
    have h1 := hjhit.2
    rw [hav (j.val + 1) (by omega)] at h1
    have h2 := hleast j hj
    omega
  have hstop : ∀ j : Fin MAX_PROCESSES, j.val < i.val →
      ¬ reclaimStop heap k requested_size j := by
    intro j hj hjstop
    rcases hjstop with hc | hh
    · exact hlive j (Nat.le_of_lt hj) hc
    · exact hbefore j hj hh
  refine ⟨allocatedAfter k (i.val + 1) requested_size,
    alloc_reclaim_hit k requested_size handle heap hshort i hhit (hlive i (Nat.le_refl _))
      hstop, ?_, ?_, ?_, ?_⟩
  · intro j hj hs
    have hlt : j.val < i.val + 1 := by omega
    simp only [allocatedAfter, reclaimedPrefix, hlt, if_true, reclaimSlot_memory_usage, hs]
  · intro j hj hs
    have hlt : j.val < i.val + 1 := by omega
    simp only [allocatedAfter, reclaimedPrefix, hlt, if_true, reclaimSlot, hs, if_false]
  · intro j hj
    have hlt : ¬ j.val < i.val + 1 := by omega
    simp only [allocatedAfter, reclaimedPrefix, hlt, if_false]
  · simp only [allocatedAfter]
    rw [hav (i.val + 1) (Nat.le_refl _)]

theorem suspendedUsage_le_sum (procs : Fin MAX_PROCESSES → EnhancedProcessControlBlock)
    (j : Fin MAX_PROCESSES) : suspendedUsage (procs j) ≤ suspendedSum procs MAX_PROCESSES := by
  have h1 := suspendedSum_succ procs j
  have h2 := suspendedSum_le_of_le procs (j.val + 1) MAX_PROCESSES j.isLt
  omega

set_option maxRecDepth 8192 in
/-- C2 does not hold in the code: on the claim's own example, one suspended process with
`memory_usage` 500, `available_memory` 100 and `allocate(400)`, the reclamation first calls
`free((void*)500)`; 500 is a byte count, not the address of a live block (neither with an
empty heap nor with a heap whose live block is elsewhere), so the call is undefined and does
not return the success the claim describes. -/
theorem reclaim_example_is_undefined :
    ((suspendedHolder 100 500).processes 0).power_state = .POWER_SUSPEND ∧
    ((suspendedHolder 100 500).processes 0).memory_usage = 500 ∧
    (suspendedHolder 100 500).available_memory = 100 ∧
    adaptive_memory_allocation (suspendedHolder 100 500) 400 7 emptyHeap = none ∧
    adaptive_memory_allocation (suspendedHolder 100 500) 400 7 (oneBlock 4096) = none :=
  ⟨by decide, by decide, by decide, rfl, rfl⟩

set_option maxRecDepth 8192 in
/-- C5 (witness): with `available_memory` 100, `allocate(60)` returns the handle and leaves 40. -/
theorem allocation_that_fits_witness :
    (adaptive_memory_allocation (suspendedHolder 100 500) 60 7 emptyHeap).map
      (fun r => (r.1, r.2.available_memory)) = some (7, 40) := by
  obtain ⟨k1, h1, h2, _⟩ :=
    allocation_that_fits (suspendedHolder 100 500) 60 7 emptyHeap (by decide)
  rw [h1, Option.map_some', h2]
  rfl

set_option maxRecDepth 8192 in
/-- C3 fails as stated: with `available_memory` 100 and a suspended process whose
`memory_usage` 4096 is the address of a live block, `allocate(1000000)` frees the block,
returns 0, and leaves `available_memory` 4196 and the process's `memory_usage` 0. -/
theorem failed_allocation_changes_state :
    (blockHolder 100 4096).available_memory = 100 ∧
    ((blockHolder 100 4096).processes 0).memory_usage = 4096 ∧
    (adaptive_memory_allocation (blockHolder 100 4096) 1000000 7 (oneBlock 4096)).map
      (fun r => (r.1, r.2.available_memory, (r.2.processes 0).memory_usage)) =
      some (0, 4196, 0) := by
  decide

/-- C3 (amended): when the allocator's handle is non-zero and `adaptive_memory_allocation`
returns 0, nothing was subtracted from `available_memory`; the call has only reclaimed: every
slot is the old one with `memory_usage` 0 if it is in `POWER_SUSPEND`, `available_memory` is
the old value plus everything reclaimed (in 32-bit arithmetic), the sensors, token, power mode
and `total_memory` are unchanged, and the whole state is unchanged when no suspended slot held
memory. -/
theorem failed_allocation_only_reclaims (k : MobileOSKernel) (requested_size handle : Nat)
    (heap : Heap) (k1 : MobileOSKernel) (hhandle : handle ≠ 0)
    (hfail : adaptive_memory_allocation k requested_size handle heap = some (0, k1)) :
    k.available_memory < requested_size ∧
    (∀ j : Fin MAX_PROCESSES, k1.processes j = reclaimSlot (k.processes j)) ∧
    k1.available_memory =
      (if suspendedSum k.processes MAX_PROCESSES = 0 then k.available_memory
       else (k.available_memory + suspendedSum k.processes MAX_PROCESSES) % U32) ∧
    k1.sensors = k.sensors ∧
    k1.system_token = k.system_token ∧
    k1.current_power_mode = k.current_power_mode ∧
    k1.total_memory = k.total_memory ∧
    (suspendedSum k.processes MAX_PROCESSES = 0 → k1 = k) := by
  have hne : (0 : Nat) ≠ handle := fun e => hhandle e.symm
  rcases alloc_cases k requested_size handle heap with h | ⟨_, h⟩ | ⟨_, _, _, h⟩ | ⟨hlt, _, h⟩
  · rw [h] at hfail; exact Option.noConfusion hfail
  · rw [h] at hfail
    exact absurd (congrArg Prod.fst (Option.some.inj hfail)).symm hne
  · rw [h] at hfail
    exact absurd (congrArg Prod.fst (Option.some.inj hfail)).symm hne
  · rw [h] at hfail
    have hk : reclaimedPrefix k MAX_PROCESSES = k1 :=
      congrArg Prod.snd (Option.some.inj hfail)
    subst hk
    have hproc : ∀ j : Fin MAX_PROCESSES,
        (reclaimedPrefix k MAX_PROCESSES).processes j = reclaimSlot (k.processes j) := by
      intro j
      simp only [reclaimedPrefix, j.isLt, if_true]
    have hav : (reclaimedPrefix k MAX_PROCESSES).available_memory =
        availAfter k MAX_PROCESSES := rfl
    refine ⟨hlt, hproc, ?_, rfl, rfl, rfl, rfl, ?_⟩
    · rw [hav, availAfter_eq]
    · intro hzero
      ext1
      · funext j
        rw [hproc j]
        apply reclaimSlot_of_zero
        have := suspendedUsage_le_sum k.processes j
        omega
      · rfl
      · rfl
      · rfl
      · rfl
      · rw [hav, availAfter_eq, if_pos hzero]

set_option maxRecDepth 8192 in
/-- C3 (amended, witness): `allocate(1000000)` with `available_memory` 100 and a suspended
process whose `memory_usage` 4096 is the address of a live block. -/
theorem failed_allocation_only_reclaims_witness :
    (adaptive_memory_allocation (blockHolder 100 4096) 1000000 7 (oneBlock 4096)).map
      (fun r => r.2.total_memory) = some 1048576 := by
  have hret : (adaptive_memory_allocation (blockHolder 100 4096) 1000000 7
      (oneBlock 4096)).map (fun r => r.1) = some 0 := by decide
  cases hres : adaptive_memory_allocation (blockHolder 100 4096) 1000000 7 (oneBlock 4096) with
  | none => rw [hres] at hret; exact Option.noConfusion hret
  | some r =>
    obtain ⟨r1, k1⟩ := r
    rw [hres] at hret
    have h0 : r1 = 0 := Option.some.inj hret
    subst h0
    have h := failed_allocation_only_reclaims (blockHolder 100 4096) 1000000 7
      (oneBlock 4096) k1 (by decide) hres
    rw [Option.map_some', h.2.2.2.2.2.2.1]
    rfl

/-! ## Power modes: the contract -/

/-- C6: after `power_management(POWER_ULTRA_BATTERY_SAVE)` every occupied slot with
priority `< 2` is in `POWER_SUSPEND`, and every occupied slot with priority `≥ 2` is unchanged
in all its fields. -/
theorem ultra_battery_save_suspends (k : MobileOSKernel) (i : Fin MAX_PROCESSES) :
    ((k.processes i).pid ≠ 0 → (k.processes i).priority < 2 →
      ((power_management k .POWER_ULTRA_BATTERY_SAVE).processes i).power_state
        = .POWER_SUSPEND) ∧
    ((k.processes i).pid ≠ 0 → 2 ≤ (k.processes i).priority →
      (power_management k .POWER_ULTRA_BATTERY_SAVE).processes i = k.processes i) := by
  rw [power_management_ultra]
  constructor
  · intro _ hlow
    simp only [suspendIfLow, hlow, if_true]
  · intro _ hhigh
    have : ¬ (k.processes i).priority < 2 := by omega
    simp only [suspendIfLow, this, if_false]

/-- C7: after one `power_management(POWER_BATTERY_SAVE)` an active sensor's `sampling_rate` is
`r / 2` (floor), after two consecutive calls it is `r / 2 / 2`; an inactive slot keeps its rate
through both calls. -/
theorem battery_save_halves (k : MobileOSKernel) (i : Fin MAX_SENSORS) :
    ((k.sensors i).is_active = true →
      ((power_management k .POWER_BATTERY_SAVE).sensors i).sampling_rate =
        (k.sensors i).sampling_rate / 2 ∧
      ((power_management (power_management k .POWER_BATTERY_SAVE)
          .POWER_BATTERY_SAVE).sensors i).sampling_rate =
        (k.sensors i).sampling_rate / 2 / 2) ∧
    ((k.sensors i).is_active = false →
      ((power_management k .POWER_BATTERY_SAVE).sensors i).sampling_rate =
        (k.sensors i).sampling_rate ∧
      ((power_management (power_management k .POWER_BATTERY_SAVE)
          .POWER_BATTERY_SAVE).sensors i).sampling_rate =
        (k.sensors i).sampling_rate) := by
  rw [power_management_battery, power_management_battery]
  constructor
  · intro hact
    simp [halveIfActive, hact]
  · intro hina
    simp [halveIfActive, hina]

/-! ## Reachable kernel states -/

theorem createCall_cases (k : MobileOSKernel) (a : CreateArgs) :
    createCall k a = (0, k) ∨ ∃ i : Fin MAX_PROCESSES, (k.processes i).pid = 0 ∧
      createCall k a = (i.val + 1, createdKernel k i a.process_name a.priority
        a.required_permissions a.permission_count a.now) := by
  rcases first_index_cases MAX_PROCESSES (fun j => (k.processes j).pid = 0) with hall | ⟨i, hi, hb⟩
  · exact Or.inl (create_process_full k _ _ _ _ _ hall)
  · exact Or.inr ⟨i, hi, create_process_first k _ _ _ _ _ i hi hb⟩

theorem registerCall_cases (k : MobileOSKernel) (a : RegisterArgs) :
    registerCall k a = (false, k) ∨ ∃ i : Fin MAX_SENSORS, (k.sensors i).is_active = false ∧
      registerCall k a = (true, registeredKernel k i a.type a.sampling_rate a.buf) := by
  rcases first_index_cases MAX_SENSORS (fun j => (k.sensors j).is_active = false)
    with hall | ⟨i, hi, hb⟩
  · refine Or.inl (register_sensor_full k _ _ _ (fun j => ?_))
    have := hall j
    simpa using this
  · refine Or.inr ⟨i, hi, register_sensor_first k _ _ _ i hi (fun j hj => ?_)⟩
    have := hb j hj
    simpa using this

theorem reclaimSlot_pid (p : EnhancedProcessControlBlock) : (reclaimSlot p).pid = p.pid := by
  unfold reclaimSlot; split <;> rfl

theorem suspendIfLow_pid (p : EnhancedProcessControlBlock) : (suspendIfLow p).pid = p.pid := by
  unfold suspendIfLow; split <;> rfl

theorem suspendIfLow_memory_usage (p : EnhancedProcessControlBlock) :
    (suspendIfLow p).memory_usage = p.memory_usage := by
  unfold suspendIfLow; split <;> rfl

theorem touchIfOccupied_pid (now : Fin MAX_PROCESSES → Nat) (j : Fin MAX_PROCESSES)
    (p : EnhancedProcessControlBlock) : (touchIfOccupied now j p).pid = p.pid := by
  unfold touchIfOccupied; split <;> rfl

theorem touchIfOccupied_memory_usage (now : Fin MAX_PROCESSES → Nat) (j : Fin MAX_PROCESSES)
    (p : EnhancedProcessControlBlock) :
    (touchIfOccupied now j p).memory_usage = p.memory_usage := by
  unfold touchIfOccupied; split <;> rfl

theorem power_management_pid (k : MobileOSKernel) (m : PowerManagementState)
    (j : Fin MAX_PROCESSES) : ((power_management k m).processes j).pid = (k.processes j).pid := by
  cases m
  case POWER_ULTRA_BATTERY_SAVE => rw [power_management_ultra]; exact suspendIfLow_pid _
  case POWER_BATTERY_SAVE => rw [power_management_battery]
  all_goals rfl

theorem power_management_memory_usage (k : MobileOSKernel) (m : PowerManagementState)
    (j : Fin MAX_PROCESSES) :
    ((power_management k m).processes j).memory_usage = (k.processes j).memory_usage := by
  cases m
  case POWER_ULTRA_BATTERY_SAVE => rw [power_management_ultra]; exact suspendIfLow_memory_usage _
  case POWER_BATTERY_SAVE => rw [power_management_battery]
  all_goals rfl

theorem power_management_memory (k : MobileOSKernel) (m : PowerManagementState) :
    (power_management k m).total_memory = k.total_memory ∧
    (power_management k m).available_memory = k.available_memory := by
  cases m
  case POWER_ULTRA_BATTERY_SAVE => rw [power_management_ultra]; exact ⟨rfl, rfl⟩
  case POWER_BATTERY_SAVE => rw [power_management_battery]; exact ⟨rfl, rfl⟩
  all_goals exact ⟨rfl, rfl⟩

/-- Every operation keeps the identifier of a slot, or gives the free slot `j` the identifier
`j + 1`. -/
theorem run_pid (op : KernelOp) (k k1 : MobileOSKernel) (hrun : op.run k = some k1)
    (j : Fin MAX_PROCESSES) :
    (k1.processes j).pid = (k.processes j).pid ∨
    ((k.processes j).pid = 0 ∧ (k1.processes j).pid = j.val + 1) := by
  cases op with
  | create a =>
    have hk : (createCall k a).2 = k1 := Option.some.inj hrun
    subst hk
    rcases createCall_cases k a with h | ⟨i, hi, h⟩
    · rw [h]; exact Or.inl rfl
    · rw [h]
      by_cases hj : j = i
      · subst hj
        right
        refine ⟨hi, ?_⟩
        simp [createdKernel, createdSlot]
      · left
        simp only [createdKernel, Function.update_noteq hj]
  | register a =>
    have hk : (registerCall k a).2 = k1 := Option.some.inj hrun
    subst hk
    rcases registerCall_cases k a with h | ⟨i, _, h⟩
    · rw [h]; exact Or.inl rfl
    · rw [h]; exact Or.inl rfl
  | power m =>
    have hk : power_management k m = k1 := Option.some.inj hrun
    subst hk
    exact Or.inl (power_management_pid k m j)
  | allocate requested_size handle heap =>
    obtain ⟨r, h⟩ := run_allocate k requested_size handle heap k1 hrun
    left
    rcases alloc_slot k requested_size handle heap r k1 h j with e | e
    · rw [e]
    · rw [e]; exact reclaimSlot_pid _
  | token rand now =>
    have hk : generate_security_token k rand now = k1 := Option.some.inj hrun
    subst hk
    left
    rw [generate_security_token_eq]
  | scheduler now =>
    have hk : simulate_scheduler k now = k1 := Option.some.inj hrun
    subst hk
    rw [simulate_scheduler_eq]
    exact Or.inl (touchIfOccupied_pid now j _)

/-- Every operation keeps the `memory_usage` of a slot or sets it to 0. -/
theorem run_memory_usage (op : KernelOp) (k k1 : MobileOSKernel) (hrun : op.run k = some k1)
    (j : Fin MAX_PROCESSES) :
    (k1.processes j).memory_usage = (k.processes j).memory_usage ∨
    (k1.processes j).memory_usage = 0 := by
  cases op with
  | create a =>
    have hk : (createCall k a).2 = k1 := Option.some.inj hrun
    subst hk
    left
    rcases createCall_cases k a with h | ⟨i, hi, h⟩
    · rw [h]
    · rw [h]
      by_cases hj : j = i
      · subst hj
        simp [createdKernel, createdSlot]
      · simp only [createdKernel, Function.update_noteq hj]
  | register a =>
    have hk : (registerCall k a).2 = k1 := Option.some.inj hrun
    subst hk
    rcases registerCall_cases k a with h | ⟨i, _, h⟩
    · rw [h]; exact Or.inl rfl
    · rw [h]; exact Or.inl rfl
  | power m =>
    have hk : power_management k m = k1 := Option.some.inj hrun
    subst hk
    exact Or.inl (power_management_memory_usage k m j)
  | allocate requested_size handle heap =>
    obtain ⟨r, h⟩ := run_allocate k requested_size handle heap k1 hrun
    rcases alloc_slot k requested_size handle heap r k1 h j with e | e
    · rw [e]; exact Or.inl rfl
    · rw [e, reclaimSlot_memory_usage]
      split
      · exact Or.inr rfl
      · exact Or.inl rfl
  | token rand now =>
    have hk : generate_security_token k rand now = k1 := Option.some.inj hrun
    subst hk
    left
    rw [generate_security_token_eq]
  | scheduler now =>
    have hk : simulate_scheduler k now = k1 := Option.some.inj hrun
    subst hk
    rw [simulate_scheduler_eq]
    exact Or.inl (touchIfOccupied_memory_usage now j _)

theorem run_total_memory (op : KernelOp) (k k1 : MobileOSKernel)
    (hrun : op.run k = some k1) : k1.total_memory = k.total_memory := by
  cases op with
  | create a =>
    have hk : (createCall k a).2 = k1 := Option.some.inj hrun
    subst hk
    rcases createCall_cases k a with h | ⟨i, _, h⟩
    · rw [h]
    · rw [h]; rfl
  | register a =>
    have hk : (registerCall k a).2 = k1 := Option.some.inj hrun
    subst hk
    rcases registerCall_cases k a with h | ⟨i, _, h⟩
    · rw [h]
    · rw [h]; rfl
  | power m =>
    have hk : power_management k m = k1 := Option.some.inj hrun
    subst hk
    exact (power_management_memory k m).1
  | allocate requested_size handle heap =>
    obtain ⟨r, h⟩ := run_allocate k requested_size handle heap k1 hrun
    exact (alloc_others k requested_size handle heap r k1 h).2.2.2
  | token rand now =>
    have hk : generate_security_token k rand now = k1 := Option.some.inj hrun
    subst hk
    rw [generate_security_token_eq]
  | scheduler now =>
    have hk : simulate_scheduler k now = k1 := Option.some.inj hrun
    subst hk
    rw [simulate_scheduler_eq]

/-- While no slot records any memory, no operation raises `available_memory`. -/
theorem run_available_memory_le (op : KernelOp) (k k1 : MobileOSKernel)
    (hrun : op.run k = some k1) (h : ∀ j, (k.processes j).memory_usage = 0) :
    k1.available_memory ≤ k.available_memory := by
  cases op with
  | create a =>
    have hk : (createCall k a).2 = k1 := Option.some.inj hrun
    subst hk
    rcases createCall_cases k a with h | ⟨i, _, h⟩
    · rw [h]
    · rw [h]; exact Nat.le_refl _
  | register a =>
    have hk : (registerCall k a).2 = k1 := Option.some.inj hrun
    subst hk
    rcases registerCall_cases k a with h | ⟨i, _, h⟩
    · rw [h]
    · rw [h]; exact Nat.le_refl _
  | power m =>
    have hk : power_management k m = k1 := Option.some.inj hrun
    subst hk
    exact Nat.le_of_eq (power_management_memory k m).2
  | allocate requested_size handle heap =>
    obtain ⟨r, hres⟩ := run_allocate k requested_size handle heap k1 hrun
    have husage : ∀ j, suspendedUsage (k.processes j) = 0 :=
      fun j => suspendedUsage_of_no_reclaimable _ (fun _ => h j)
    by_cases hfit : requested_size ≤ k.available_memory
    · rw [alloc_fit k requested_size handle heap hfit] at hres
      have hk : allocatedDirect k requested_size = k1 :=
        congrArg Prod.snd (Option.some.inj hres)
      subst hk
      exact Nat.sub_le _ _
    · rw [alloc_nothing_to_reclaim k requested_size handle heap (Nat.lt_of_not_le hfit)
        husage] at hres
      have hk : k = k1 := congrArg Prod.snd (Option.some.inj hres)
      subst hk
      exact Nat.le_refl _
  | token rand now =>
    have hk : generate_security_token k rand now = k1 := Option.some.inj hrun
    subst hk
    rw [generate_security_token_eq]
  | scheduler now =>
    have hk : simulate_scheduler k now = k1 := Option.some.inj hrun
    subst hk
    rw [simulate_scheduler_eq]

/-- While no slot records any memory, every operation is defined. -/
theorem run_defined (op : KernelOp) (k : MobileOSKernel)
    (h : ∀ j, (k.processes j).memory_usage = 0) : ∃ k1, op.run k = some k1 := by
  cases op with
  | create a => exact ⟨_, rfl⟩
  | register a => exact ⟨_, rfl⟩
  | power m => exact ⟨_, rfl⟩
  | allocate requested_size handle heap =>
    have husage : ∀ j, suspendedUsage (k.processes j) = 0 :=
      fun j => suspendedUsage_of_no_reclaimable _ (fun _ => h j)
    by_cases hfit : requested_size ≤ k.available_memory
    · refine ⟨allocatedDirect k requested_size, ?_⟩
      simp only [KernelOp.run, alloc_fit k requested_size handle heap hfit, Option.map_some']
    · refine ⟨k, ?_⟩
      simp only [KernelOp.run, alloc_nothing_to_reclaim k requested_size handle heap
        (Nat.lt_of_not_le hfit) husage, Option.map_some']
  | token rand now => exact ⟨_, rfl⟩
  | scheduler now => exact ⟨_, rfl⟩

theorem initialize_mobile_os_eq (rand : Nat → Nat) (now : Nat) :
    initialize_mobile_os rand now =
      { zeroKernel with
        total_memory := 256 * 1024 * 1024
        available_memory := 256 * 1024 * 1024
        system_token := freshToken rand now } := by
  simp only [initialize_mobile_os, generate_security_token_eq]
  rfl

/-- In a reachable state no slot records any memory, and the budget is respected. -/
theorem reachable_memory (k : MobileOSKernel) (hk : Reachable k) :
    (∀ j, (k.processes j).memory_usage = 0) ∧ k.available_memory ≤ k.total_memory := by
  induction hk with
  | init rand now =>
    rw [initialize_mobile_os_eq]
    exact ⟨fun _ => rfl, Nat.le_refl _⟩
  | @step op k0 k1 _ hrun ih =>
    refine ⟨fun j => ?_, ?_⟩
    · rcases run_memory_usage op k0 k1 hrun j with e | e
      · rw [e]; exact ih.1 j
      · exact e
    · rw [run_total_memory op k0 k1 hrun]
      exact Nat.le_trans (run_available_memory_le op k0 k1 hrun ih.1) ih.2

/-! ## Invariants of the reachable states -/

/-- C4: in every kernel state reachable from `initialize_mobile_os` by the core operations,
`available_memory ≤ total_memory`. -/
theorem available_le_total (k : MobileOSKernel) (hk : Reachable k) :
    k.available_memory ≤ k.total_memory :=
  (reachable_memory k hk).2

/-- C4 (witness): the state after initialization, one process creation and one allocation of
4096 units. -/
theorem available_le_total_witness :
    (allocatedDirect (oneProcess 1) 4096).available_memory ≤
      (allocatedDirect (oneProcess 1) 4096).total_memory := by
  have hcreate : Reachable (oneProcess 1) :=
    Reachable.step (.create ⟨[65], 1, [.PERM_LOCATION], 1, 0⟩) (.init (fun _ => 0) 0) rfl
  have hrun : (KernelOp.allocate 4096 7 emptyHeap).run (oneProcess 1) =
      some (allocatedDirect (oneProcess 1) 4096) := by
    simp only [KernelOp.run, alloc_fit (oneProcess 1) 4096 7 emptyHeap (by decide),
      Option.map_some']
  exact available_le_total _ (Reachable.step _ hcreate hrun)

/-- C9: in every reachable kernel state each slot `i` has `pid = 0` or `pid = i + 1`, no two
occupied slots share an identifier, and no operation changes the `pid` of an occupied slot:
every operation is defined there and leaves each such `pid` as it was. -/
theorem pid_is_slot_index (k : MobileOSKernel) (hk : Reachable k) :
    (∀ i : Fin MAX_PROCESSES, (k.processes i).pid = 0 ∨ (k.processes i).pid = i.val + 1) ∧
    (∀ i j : Fin MAX_PROCESSES, (k.processes i).pid ≠ 0 →
      (k.processes i).pid = (k.processes j).pid → i = j) ∧
    (∀ op : KernelOp, ∃ k1 : MobileOSKernel, op.run k = some k1 ∧
      ∀ i : Fin MAX_PROCESSES, (k.processes i).pid ≠ 0 →
        (k1.processes i).pid = (k.processes i).pid) := by
  have hshape : ∀ i : Fin MAX_PROCESSES,
      (k.processes i).pid = 0 ∨ (k.processes i).pid = i.val + 1 := by
    induction hk with
    | init rand now =>
      intro i
      rw [initialize_mobile_os_eq]
      exact Or.inl rfl
    | @step op k0 k1 _ hrun ih =>
      intro i
      rcases run_pid op k0 k1 hrun i with e | ⟨_, e⟩
      · rw [e]; exact ih i
      · exact Or.inr e
  refine ⟨hshape, ?_, ?_⟩
  · intro i j hi hij
    have hj : (k.processes j).pid ≠ 0 := fun e => hi (hij.trans e)
    have h1 := (hshape i).resolve_left hi
    have h2 := (hshape j).resolve_left hj
    apply Fin.ext
    omega
  · intro op
    obtain ⟨k1, hrun⟩ := run_defined op k (reachable_memory k hk).1
    refine ⟨k1, hrun, ?_⟩
    intro i hi
    rcases run_pid op k k1 hrun i with e | ⟨e, _⟩
    · exact e
    · exact absurd e hi

/-- C9 (witness): in the state after initialization and one process creation, slot 0 has
`pid` 1, and `power_management(POWER_ULTRA_BATTERY_SAVE)` keeps it. -/
theorem pid_is_slot_index_witness :
    ((oneProcess 1).processes 0).pid = (0 : Fin MAX_PROCESSES).val + 1 ∧
    ((power_management (oneProcess 1) .POWER_ULTRA_BATTERY_SAVE).processes 0).pid =
      ((oneProcess 1).processes 0).pid := by
  have hreach : Reachable (oneProcess 1) :=
    Reachable.step (.create ⟨[65], 1, [.PERM_LOCATION], 1, 0⟩) (.init (fun _ => 0) 0) rfl
  have h := pid_is_slot_index (oneProcess 1) hreach
  refine ⟨(h.1 0).resolve_left (by decide), ?_⟩
  obtain ⟨k1, hrun, hpid⟩ := h.2.2 (.power .POWER_ULTRA_BATTERY_SAVE)
  have hk : power_management (oneProcess 1) .POWER_ULTRA_BATTERY_SAVE = k1 :=
    Option.some.inj hrun
  rw [hk]
  exact hpid 0 (by decide)

theorem power_management_sensor (k : MobileOSKernel) (m : PowerManagementState)
    (j : Fin MAX_SENSORS) :
    ((power_management k m).sensors j).is_active = (k.sensors j).is_active ∧
    ((power_management k m).sensors j).data_buffer = (k.sensors j).data_buffer := by
  cases m
  case POWER_BATTERY_SAVE =>
    rw [power_management_battery]
    simp only [halveIfActive]
    split <;> exact ⟨rfl, rfl⟩
  case POWER_ULTRA_BATTERY_SAVE => rw [power_management_ultra]; exact ⟨rfl, rfl⟩
  all_goals exact ⟨rfl, rfl⟩

/-- C10 fails as stated: after `register_sensor(SENSOR_GPS, 1)` and
`power_management(POWER_BATTERY_SAVE)`, as in `main`, slot 0 is active, owns its buffer, and
has `sampling_rate` 0. -/
theorem active_sensor_with_rate_zero :
    SensorReachable gpsAfterBatterySave ∧
    (gpsAfterBatterySave.sensors 0).is_active = true ∧
    (gpsAfterBatterySave.sensors 0).data_buffer = 4096 ∧
    (gpsAfterBatterySave.sensors 0).sampling_rate = 0 := by
  refine ⟨?_, by decide, by decide, by decide⟩
  unfold gpsAfterBatterySave
  exact .power _ (.register _ (by decide) (.init _ _))

/-- C10 (amended): in every kernel state reachable from `initialize_mobile_os` through
`register_sensor` (its `malloc` succeeding) and `power_management`, each sensor slot is either
inactive with no data buffer or active with a data buffer; nothing is promised about the
`sampling_rate` of an active slot, which can be 0. -/
theorem sensor_slot_consistent (k : MobileOSKernel) (hk : SensorReachable k)
    (i : Fin MAX_SENSORS) :
    ((k.sensors i).is_active = false ∧ (k.sensors i).data_buffer = 0) ∨
    ((k.sensors i).is_active = true ∧ (k.sensors i).data_buffer ≠ 0) := by
  induction hk with
  | init rand now =>
    rw [initialize_mobile_os_eq]
    exact Or.inl ⟨rfl, rfl⟩
  | @register a k0 hbuf _ ih =>
    rcases registerCall_cases k0 a with h | ⟨i0, _, h⟩
    · rw [h]; exact ih
    · rw [h]
      by_cases hi : i = i0
      · subst hi
        right
        constructor
        · simp [registeredKernel, newSensor]
        · simpa [registeredKernel, newSensor] using hbuf
      · simp only [registeredKernel, Function.update_noteq hi]
        exact ih
  | @power m k0 _ ih =>
    obtain ⟨h1, h2⟩ := power_management_sensor k0 m i
    rw [h1, h2]
    exact ih

/-- C10 (amended, witness): slot 0 of `gpsAfterBatterySave`. -/
theorem sensor_slot_consistent_witness :
    ((gpsAfterBatterySave.sensors 0).is_active = false ∧
      (gpsAfterBatterySave.sensors 0).data_buffer = 0) ∨
    ((gpsAfterBatterySave.sensors 0).is_active = true ∧
      (gpsAfterBatterySave.sensors 0).data_buffer ≠ 0) := by
  have hreach : SensorReachable gpsAfterBatterySave := by
    unfold gpsAfterBatterySave
    exact .power _ (.register _ (by decide) (.init _ _))
  exact sensor_slot_consistent gpsAfterBatterySave hreach 0

/-- C1 (witness): the third call returns 3, and a call after 128 calls returns 0. -/
theorem create_process_sequence_witness :
    (createCall (createAll (initialize_mobile_os (fun _ => 0) 0)
      [⟨[65], 8, [.PERM_LOCATION], 1, 0⟩, ⟨[66], 5, [], 0, 0⟩]) ⟨[67], 2, [], 0, 0⟩).1 = 3 ∧
    (createCall (createAll (initialize_mobile_os (fun _ => 0) 0)
      (List.replicate 128 ⟨[65], 8, [], 0, 0⟩)) ⟨[67], 2, [], 0, 0⟩).1 = 0 :=
  have h1 := create_process_sequence (fun _ => 0) 0
    [⟨[65], 8, [.PERM_LOCATION], 1, 0⟩, ⟨[66], 5, [], 0, 0⟩] ⟨[67], 2, [], 0, 0⟩
  have h2 := create_process_sequence (fun _ => 0) 0 (List.replicate 128 ⟨[65], 8, [], 0, 0⟩)
    ⟨[67], 2, [], 0, 0⟩
  ⟨(h1.1 (by decide)).1, h2.2 (List.length_replicate _ _)⟩

/-- C8 (witness): the third call returns true, and a call after 16 calls returns false. -/
theorem register_sensor_sequence_witness :
    (registerCall (registerAll (initialize_mobile_os (fun _ => 0) 0)
      [⟨.SENSOR_ACCELEROMETER, 50, 4096⟩, ⟨.SENSOR_LIGHT, 20, 8192⟩])
      ⟨.SENSOR_GPS, 1, 12288⟩).1 = true ∧
    (registerCall (registerAll (initialize_mobile_os (fun _ => 0) 0)
      (List.replicate 16 ⟨.SENSOR_LIGHT, 20, 4096⟩)) ⟨.SENSOR_GPS, 1, 12288⟩).1 = false :=
  have h1 := register_sensor_sequence (fun _ => 0) 0
    [⟨.SENSOR_ACCELEROMETER, 50, 4096⟩, ⟨.SENSOR_LIGHT, 20, 8192⟩] ⟨.SENSOR_GPS, 1, 12288⟩
  have h2 := register_sensor_sequence (fun _ => 0) 0
    (List.replicate 16 ⟨.SENSOR_LIGHT, 20, 4096⟩) ⟨.SENSOR_GPS, 1, 12288⟩
  ⟨(h1.1 (by decide)).1, h2.2 (List.length_replicate _ _)⟩

/-- C6 (witness): a process of priority 1 is suspended, one of priority 5 is unchanged. -/
theorem ultra_battery_save_suspends_witness :
    ((power_management (oneProcess 1) .POWER_ULTRA_BATTERY_SAVE).processes 0).power_state
      = .POWER_SUSPEND ∧
    (power_management (oneProcess 5) .POWER_ULTRA_BATTERY_SAVE).processes 0 =
      (oneProcess 5).processes 0 :=
  have h1 := ultra_battery_save_suspends (oneProcess 1) 0
  have h5 := ultra_battery_save_suspends (oneProcess 5) 0
  ⟨h1.1 (by decide) (by decide), h5.2 (by decide) (by decide)⟩

/-- C7 (witness): a sensor registered with rate 50 has rate 25 after one call, and the
inactive slot 1 keeps its rate. -/
theorem battery_save_halves_witness :
    ((power_management (oneSensor 50) .POWER_BATTERY_SAVE).sensors 0).sampling_rate =
      ((oneSensor 50).sensors 0).sampling_rate / 2 ∧
    ((power_management (oneSensor 50) .POWER_BATTERY_SAVE).sensors 1).sampling_rate =
      ((oneSensor 50).sensors 1).sampling_rate :=
  have h0 := battery_save_halves (oneSensor 50) 0
  have h1 := battery_save_halves (oneSensor 50) 1
  ⟨(h0.1 (by decide)).1, (h1.2 (by decide)).1⟩

/-! ## Allocation: failure and the extent of reclamation -/

/-- If the request does not fit at once but fits after reclaiming from the slots `< n` (no
32-bit wrap up to there), some iteration of the reclamation loop returns. -/
theorem exists_reclaimHit (k : MobileOSKernel) (requested_size : Nat)
    (hshort : k.available_memory < requested_size) :
    ∀ n : Nat, n ≤ MAX_PROCESSES →
      k.available_memory + suspendedSum k.processes n < U32 →
      requested_size ≤ k.available_memory + suspendedSum k.processes n →
      ∃ j : Fin MAX_PROCESSES, reclaimHit k requested_size j := by
  intro n
  induction n with
  | zero =>
    intro _ _ hfit
    simp only [suspendedSum, Nat.add_zero] at hfit
    omega
  | succ n ih =>
    intro hn h32 hfit
    have hlt : n < MAX_PROCESSES := hn
    have hsucc := suspendedSum_succ k.processes ⟨n, hlt⟩
    simp only at hsucc
    by_cases hprev : requested_size ≤ k.available_memory + suspendedSum k.processes n
    · exact ih (Nat.le_of_succ_le hn) (by omega) hprev
    · refine ⟨⟨n, hlt⟩, ?_, ?_⟩
      · show 0 < suspendedUsage (k.processes ⟨n, hlt⟩)
        omega
      · show requested_size ≤ availAfter k (n + 1)
        rw [availAfter_of_fits k (n + 1) h32]
        exact hfit

/-- C11: when `available_memory < size` and no `POWER_SUSPEND` slot has nonzero
`memory_usage`, `adaptive_memory_allocation(size)` returns 0 (whatever the heap: nothing is
freed) and leaves `available_memory` and the whole process table unchanged. -/
theorem allocation_fails_without_reclaimable (k : MobileOSKernel)
    (requested_size handle : Nat) (heap : Heap)
    (hshort : k.available_memory < requested_size)
    (hnone : ∀ j : Fin MAX_PROCESSES,
      (k.processes j).power_state = .POWER_SUSPEND → (k.processes j).memory_usage = 0) :
    ∃ k1 : MobileOSKernel,
      adaptive_memory_allocation k requested_size handle heap = some (0, k1) ∧
      k1.available_memory = k.available_memory ∧
      k1.processes = k.processes :=
  ⟨k, alloc_nothing_to_reclaim k requested_size handle heap hshort
    (fun j => suspendedUsage_of_no_reclaimable _ (hnone j)), rfl, rfl⟩

/-- C11 (witness): with `available_memory` 100 and no process, `allocate(400)` returns 0 and
`available_memory` is still 100. -/
theorem allocation_fails_without_reclaimable_witness :
    (adaptive_memory_allocation (idleKernel 100) 400 7 emptyHeap).map
      (fun r => (r.1, r.2.available_memory)) = some (0, 100) := by
  obtain ⟨k1, h1, h2, _⟩ :=
    allocation_fails_without_reclaimable (idleKernel 100) 400 7 emptyHeap (by decide)
      (fun _ _ => rfl)
  rw [h1, Option.map_some', h2]
  rfl

/-- On a call that returns: when `available_memory` plus the `memory_usage` of all
`POWER_SUSPEND` slots fits in 32 bits and the allocator's handle is non-zero, the value
returned is 0 exactly when that sum is strictly less than `size`. -/
theorem alloc_fails_iff_of_defined (k : MobileOSKernel) (requested_size handle : Nat)
    (heap : Heap) (r : Nat) (k1 : MobileOSKernel) (hhandle : handle ≠ 0)
    (h32 : k.available_memory + suspendedSum k.processes MAX_PROCESSES < U32)
    (hres : adaptive_memory_allocation k requested_size handle heap = some (r, k1)) :
    r = 0 ↔ k.available_memory + suspendedSum k.processes MAX_PROCESSES < requested_size := by
  rcases alloc_cases k requested_size handle heap with
    h | ⟨hfit, h⟩ | ⟨_, i, hi, h⟩ | ⟨hlt, hnone, h⟩
  · rw [h] at hres; exact Option.noConfusion hres
  · rw [h] at hres
    have hr : handle = r := congrArg Prod.fst (Option.some.inj hres)
    subst hr
    exact ⟨fun e => absurd e hhandle, fun hless => absurd hfit (by omega)⟩
  · rw [h] at hres
    have hr : handle = r := congrArg Prod.fst (Option.some.inj hres)
    subst hr
    refine ⟨fun e => absurd e hhandle, fun hless => ?_⟩
    have hmono := suspendedSum_le_of_le k.processes (i.val + 1) MAX_PROCESSES i.isLt
    have h1 := hi.2
    rw [availAfter_of_fits k (i.val + 1) (by omega)] at h1
    omega
  · rw [h] at hres
    have hr : 0 = r := congrArg Prod.fst (Option.some.inj hres)
    subst hr
    refine ⟨fun _ => ?_, fun _ => rfl⟩
    by_contra hfit
    obtain ⟨j, hj⟩ := exists_reclaimHit k requested_size hlt MAX_PROCESSES (Nat.le_refl _)
      h32 (Nat.le_of_not_lt hfit)
    exact hnone j hj

set_option maxRecDepth 8192 in
/-- C12 does not hold in the code. With `available_memory` 100 and a suspended process whose
`memory_usage` is 50, the sum 150 is less than 400, yet `allocate(400)` does not return 0: it
calls `free((void*)50)`, which is undefined. With `memory_usage` 500 the sum 600 is not less
than 400, yet `allocate(400)` does not succeed: it calls `free((void*)500)`. -/
theorem allocation_outcome_is_undefined :
    (suspendedHolder 100 50).available_memory +
      suspendedSum (suspendedHolder 100 50).processes MAX_PROCESSES = 150 ∧
    adaptive_memory_allocation (suspendedHolder 100 50) 400 7 emptyHeap = none ∧
    (suspendedHolder 100 500).available_memory +
      suspendedSum (suspendedHolder 100 500).processes MAX_PROCESSES = 600 ∧
    adaptive_memory_allocation (suspendedHolder 100 500) 400 7 (oneBlock 4096) = none :=
  ⟨by decide, rfl, by decide, rfl⟩

/-- A call that returns leaves `memory_usage` unchanged in every slot whose `power_state` is
not `POWER_SUSPEND`. -/
theorem alloc_spares_active_of_defined (k : MobileOSKernel) (requested_size handle : Nat)
    (heap : Heap) (r : Nat) (k1 : MobileOSKernel)
    (hres : adaptive_memory_allocation k requested_size handle heap = some (r, k1))
    (j : Fin MAX_PROCESSES) (hactive : (k.processes j).power_state ≠ .POWER_SUSPEND) :
    (k1.processes j).memory_usage = (k.processes j).memory_usage := by
  rcases alloc_slot k requested_size handle heap r k1 hres j with e | e
  · rw [e]
  · rw [e, reclaimSlot_memory_usage, if_neg hactive]

/-- C15: whenever `adaptive_memory_allocation(size)` returns, with success or with failure,
it has left `memory_usage` unchanged in every slot whose `power_state` is not `POWER_SUSPEND`
(the priority is never read); and it does return when no iteration of the reclamation loop
frees an address that is not a live block. -/
theorem allocation_spares_active (k : MobileOSKernel) (requested_size handle : Nat)
    (heap : Heap) :
    ((∀ j : Fin MAX_PROCESSES, ¬ reclaimCrash heap k j) →
      ∃ (r : Nat) (k1 : MobileOSKernel),
        adaptive_memory_allocation k requested_size handle heap = some (r, k1)) ∧
    (∀ (r : Nat) (k1 : MobileOSKernel),
      adaptive_memory_allocation k requested_size handle heap = some (r, k1) →
      ∀ j : Fin MAX_PROCESSES, (k.processes j).power_state ≠ .POWER_SUSPEND →
        (k1.processes j).memory_usage = (k.processes j).memory_usage) :=
  ⟨alloc_defined_of_live_blocks k requested_size handle heap,
    fun r k1 hres j hactive =>
      alloc_spares_active_of_defined k requested_size handle heap r k1 hres j hactive⟩

set_option maxRecDepth 8192 in
/-- C15 (witness): with slot 0 suspended, its `memory_usage` 4096 the address of a live block,
`allocate(400)` reclaims from slot 0, returns the handle, and leaves the 300 units of the
active slot 1, whose priority is 0, untouched. -/
theorem allocation_spares_active_witness :
    (adaptive_memory_allocation activeBesideSuspended 400 7 (oneBlock 4096)).map
      (fun r => (r.1, (r.2.processes 0).memory_usage, (r.2.processes 1).memory_usage)) =
      some (7, 0, 300) := by
  have hret : (adaptive_memory_allocation activeBesideSuspended 400 7 (oneBlock 4096)).map
      (fun r => (r.1, (r.2.processes 0).memory_usage)) = some (7, 0) := by decide
  have h := allocation_spares_active activeBesideSuspended 400 7 (oneBlock 4096)
  cases hres : adaptive_memory_allocation activeBesideSuspended 400 7 (oneBlock 4096) with
  | none => rw [hres] at hret; exact Option.noConfusion hret
  | some r =>
    obtain ⟨r1, k1⟩ := r
    rw [hres] at hret
    have h1 : (k1.processes 1).memory_usage = (activeBesideSuspended.processes 1).memory_usage :=
      h.2 r1 k1 hres 1 (by decide)
    have h0 : (r1, (k1.processes 0).memory_usage) = (7, 0) := Option.some.inj hret
    have hr : r1 = 7 := congrArg Prod.fst h0
    have hu : (k1.processes 0).memory_usage = 0 := congrArg Prod.snd h0
    rw [Option.map_some']
    simp only [hr, hu, h1]
    rfl

/-! ## The allocator of the GUI variant -/

theorem suspendedCount_succ (procs : Fin MAX_PROCESSES → EnhancedProcessControlBlock)
    (j : Fin MAX_PROCESSES) :
    suspendedCount procs (j.val + 1) = suspendedCount procs j.val +
      (if (procs j).power_state = .POWER_SUSPEND then 1 else 0) := by
  simp only [suspendedCount, j.isLt, dite_true, Fin.eta]

theorem log_write_of_lt (log : List String) (entry : String)
    (h : log.length < GUI.MAX_LOG_ENTRIES) : GUI.log_write log entry = some (log ++ [entry]) := by
  unfold GUI.log_write
  rw [if_pos h]

theorem log_write_of_ge (log : List String) (entry : String)
    (h : GUI.MAX_LOG_ENTRIES ≤ log.length) : GUI.log_write log entry = none := by
  unfold GUI.log_write
  rw [if_neg (Nat.not_lt_of_le h)]

/-- The loop of the GUI allocator writes one log entry per slot in `POWER_SUSPEND` and never
touches the kernel; it overruns `log_buffer` exactly when the entries no longer fit. -/
theorem gui_reclaim_loop (k : MobileOSKernel) (log : List String) (m : Nat)
    (h : m ≤ MAX_PROCESSES) (hlog : log.length ≤ GUI.MAX_LOG_ENTRIES) :
    (log.length + suspendedCount k.processes m ≤ GUI.MAX_LOG_ENTRIES →
      ∃ log1 : List String,
        forLoop MAX_PROCESSES GUI.reclaimBody m h (some (k, log)) = some (k, log1) ∧
        log1.length = log.length + suspendedCount k.processes m) ∧
    (GUI.MAX_LOG_ENTRIES < log.length + suspendedCount k.processes m →
      forLoop MAX_PROCESSES GUI.reclaimBody m h (some (k, log)) = none) := by
  refine forLoop_invariant MAX_PROCESSES GUI.reclaimBody
    (fun m t =>
      (log.length + suspendedCount k.processes m ≤ GUI.MAX_LOG_ENTRIES →
        ∃ log1 : List String, t = some (k, log1) ∧
          log1.length = log.length + suspendedCount k.processes m) ∧
      (GUI.MAX_LOG_ENTRIES < log.length + suspendedCount k.processes m → t = none))
    (some (k, log)) ⟨fun _ => ⟨log, rfl, rfl⟩, fun hlt => ?_⟩ ?_ m h
  · simp only [suspendedCount, Nat.add_zero] at hlt
    exact absurd hlog (Nat.not_le_of_lt hlt)
  · intro i t ht
    have hsucc := suspendedCount_succ k.processes i
    by_cases hroom : log.length + suspendedCount k.processes i.val ≤ GUI.MAX_LOG_ENTRIES
    · obtain ⟨log1, ht1, hlen⟩ := ht.1 hroom
      subst ht1
      by_cases hs : (k.processes i).power_state = .POWER_SUSPEND
      · rw [if_pos hs] at hsucc
        constructor
        · intro hfit
          have hlt : log1.length < GUI.MAX_LOG_ENTRIES := by omega
          refine ⟨log1 ++ ["Reclaiming memory from suspended process"], ?_, ?_⟩
          · simp only [GUI.reclaimBody, hs, if_true, log_write_of_lt log1 _ hlt]
          · rw [List.length_append, List.length_singleton]; omega
        · intro hover
          have hge : GUI.MAX_LOG_ENTRIES ≤ log1.length := by omega
          simp only [GUI.reclaimBody, hs, if_true, log_write_of_ge log1 _ hge]
      · rw [if_neg hs] at hsucc
        constructor
        · intro _
          refine ⟨log1, ?_, by omega⟩
          simp only [GUI.reclaimBody, hs, if_false]
        · intro hover
          omega
    · have hnone : t = none := ht.2 (Nat.lt_of_not_le hroom)
      subst hnone
      constructor
      · intro hfit
        omega
      · intro _
        rfl

/-- A request that fits: the GUI allocator takes `size` off `available_memory` and returns the
allocator's handle, having written two log entries. -/
theorem gui_alloc_fit (k : MobileOSKernel) (requested_size handle : Nat)
    (h : requested_size ≤ k.available_memory) :
    ∃ log : List String, GUI.adaptive_memory_allocation k requested_size handle =
      some (handle, allocatedDirect k requested_size, log) := by
  have h0 : ([] : List String).length < GUI.MAX_LOG_ENTRIES := by decide
  have hge : k.available_memory ≥ requested_size := h
  unfold GUI.adaptive_memory_allocation
  rw [log_write_of_lt [] _ h0]
  simp only [if_pos hge]
  rw [log_write_of_lt _ _ (by simp [GUI.MAX_LOG_ENTRIES])]
  exact ⟨_, rfl⟩

/-- A request that does not fit, with at most 97 slots in `POWER_SUSPEND`: the GUI allocator
returns 0 and leaves the kernel as it was. -/
theorem gui_alloc_short (k : MobileOSKernel) (requested_size handle : Nat)
    (h : k.available_memory < requested_size)
    (hcount : suspendedCount k.processes MAX_PROCESSES ≤ 97) :
    ∃ log : List String,
      GUI.adaptive_memory_allocation k requested_size handle = some (0, k, log) := by
  have h0 : ([] : List String).length < GUI.MAX_LOG_ENTRIES := by decide
  have hlt : ¬ k.available_memory ≥ requested_size := Nat.not_le_of_lt h
  unfold GUI.adaptive_memory_allocation
  rw [log_write_of_lt [] _ h0]
  simp only [if_neg hlt]
  rw [log_write_of_lt _ _ (by simp [GUI.MAX_LOG_ENTRIES])]
  simp only []
  obtain ⟨log3, hloop, hlen⟩ := (gui_reclaim_loop k
    ([] ++ ["Requested Memory Size: " ++ toString requested_size ++ " bytes"] ++
      ["Insufficient Memory. Attempting to reclaim..."]) MAX_PROCESSES (Nat.le_refl _)
      (by simp [GUI.MAX_LOG_ENTRIES])).1
    (by
      show 2 + suspendedCount k.processes MAX_PROCESSES ≤ 100
      omega)
  rw [hloop]
  have hlen3 : log3.length < GUI.MAX_LOG_ENTRIES := by
    rw [hlen]
    show 2 + suspendedCount k.processes MAX_PROCESSES < 100
    omega
  simp only [log_write_of_lt log3 _ hlen3]
  exact ⟨_, rfl⟩

/-- A request that does not fit, with 98 or more slots in `POWER_SUSPEND`: the GUI allocator
writes past the end of `log_buffer`. -/
theorem gui_alloc_overrun (k : MobileOSKernel) (requested_size handle : Nat)
    (h : k.available_memory < requested_size)
    (hcount : 98 ≤ suspendedCount k.processes MAX_PROCESSES) :
    GUI.adaptive_memory_allocation k requested_size handle = none := by
  have h0 : ([] : List String).length < GUI.MAX_LOG_ENTRIES := by decide
  have hlt : ¬ k.available_memory ≥ requested_size := Nat.not_le_of_lt h
  have hloop := gui_reclaim_loop k
    ([] ++ ["Requested Memory Size: " ++ toString requested_size ++ " bytes"] ++
      ["Insufficient Memory. Attempting to reclaim..."]) MAX_PROCESSES (Nat.le_refl _)
      (by simp [GUI.MAX_LOG_ENTRIES])
  unfold GUI.adaptive_memory_allocation
  rw [log_write_of_lt [] _ h0]
  simp only [if_neg hlt]
  rw [log_write_of_lt _ _ (by simp [GUI.MAX_LOG_ENTRIES])]
  simp only []
  by_cases hroom : 2 + suspendedCount k.processes MAX_PROCESSES ≤ 100
  · obtain ⟨log3, hl, hlen⟩ := hloop.1 hroom
    rw [hl]
    have hlen3 : GUI.MAX_LOG_ENTRIES ≤ log3.length := by
      rw [hlen]
      show 100 ≤ 2 + suspendedCount k.processes MAX_PROCESSES
      omega
    simp only [log_write_of_ge log3 _ hlen3]
  · rw [hloop.2 (Nat.lt_of_not_le hroom)]

set_option maxRecDepth 8192 in
/-- C13 fails as stated: with `available_memory` 100 and a suspended process whose
`memory_usage` 4096 is the address of a live block, `allocate(400)` succeeds in the CLI
variant (leaving 3796 available and `memory_usage` 0) and fails in the GUI variant (leaving
100 available and `memory_usage` 4096). -/
theorem variants_differ_on_reclamation :
    (adaptive_memory_allocation (blockHolder 100 4096) 400 7 (oneBlock 4096)).map
      (fun r => (r.1, r.2.available_memory, (r.2.processes 0).memory_usage)) =
      some (7, 3796, 0) ∧
    (GUI.adaptive_memory_allocation (blockHolder 100 4096) 400 7).map
      (fun r => (r.1, r.2.1.available_memory, (r.2.1.processes 0).memory_usage)) =
      some (0, 100, 4096) := by
  decide

/-- C13 (amended): the two variants share the allocation logic up to reclamation. When
`size ≤ available_memory`, the CLI and the GUI `adaptive_memory_allocation` both return the
allocator's handle and leave the same kernel, `size` taken off `available_memory` and the
process table unchanged. When `available_memory < size` and at most 97 slots are in
`POWER_SUSPEND`, the GUI variant returns 0 and leaves the kernel unchanged (it never
reclaims), and so does the CLI variant if no `POWER_SUSPEND` slot has nonzero
`memory_usage`. -/
theorem variants_agree_without_reclamation (k : MobileOSKernel) (requested_size handle : Nat)
    (heap : Heap) :
    (requested_size ≤ k.available_memory →
      ∃ (k1 : MobileOSKernel) (log : List String),
        adaptive_memory_allocation k requested_size handle heap = some (handle, k1) ∧
        GUI.adaptive_memory_allocation k requested_size handle = some (handle, k1, log) ∧
        k1.available_memory = k.available_memory - requested_size ∧
        k1.processes = k.processes) ∧
    (k.available_memory < requested_size →
      suspendedCount k.processes MAX_PROCESSES ≤ 97 →
      (∃ log : List String,
        GUI.adaptive_memory_allocation k requested_size handle = some (0, k, log)) ∧
      ((∀ j : Fin MAX_PROCESSES,
          (k.processes j).power_state = .POWER_SUSPEND → (k.processes j).memory_usage = 0) →
        adaptive_memory_allocation k requested_size handle heap = some (0, k))) := by
  constructor
  · intro hfit
    obtain ⟨log, hg⟩ := gui_alloc_fit k requested_size handle hfit
    exact ⟨allocatedDirect k requested_size, log,
      alloc_fit k requested_size handle heap hfit, hg, rfl, rfl⟩
  · intro hshort hcount
    refine ⟨gui_alloc_short k requested_size handle hshort hcount, ?_⟩
    intro hnone
    exact alloc_nothing_to_reclaim k requested_size handle heap hshort
      (fun j => suspendedUsage_of_no_reclaimable _ (hnone j))

set_option maxRecDepth 8192 in
/-- C13 (amended, witness): `allocate(60)` with 100 available returns the handle in both
variants, and the GUI `allocate(400)` returns 0 with one slot in `POWER_SUSPEND`. -/
theorem variants_agree_without_reclamation_witness :
    (adaptive_memory_allocation (blockHolder 100 4096) 60 7 (oneBlock 4096)).map
      (fun r => r.1) = some 7 ∧
    (GUI.adaptive_memory_allocation (blockHolder 100 4096) 60 7).map (fun r => r.1) =
      some 7 ∧
    (GUI.adaptive_memory_allocation (blockHolder 100 4096) 400 7).map (fun r => r.1) =
      some 0 := by
  have h60 := variants_agree_without_reclamation (blockHolder 100 4096) 60 7 (oneBlock 4096)
  have h400 := variants_agree_without_reclamation (blockHolder 100 4096) 400 7 (oneBlock 4096)
  obtain ⟨k1, log, hc, hg, _, _⟩ := h60.1 (by decide)
  obtain ⟨log2, hg2⟩ := (h400.2 (by decide) (by decide)).1
  rw [hc, hg, hg2]
  exact ⟨rfl, rfl, rfl⟩

/-! ## Power modes: frame and idempotence -/

theorem suspendIfLow_idem (p : EnhancedProcessControlBlock) :
    suspendIfLow (suspendIfLow p) = suspendIfLow p := by
  unfold suspendIfLow
  by_cases h : p.priority < 2
  · simp only [h, if_true]
  · simp only [h, if_false]

theorem power_management_mode (k : MobileOSKernel) (m : PowerManagementState) :
    (power_management k m).current_power_mode = m := by
  cases m
  case POWER_ULTRA_BATTERY_SAVE => rw [power_management_ultra]
  case POWER_BATTERY_SAVE => rw [power_management_battery]
  all_goals rfl

/-- C16: `power_management(m)` sets `current_power_mode` to `m`; for `POWER_FULL`,
`POWER_INTERACTIVE` and `POWER_SUSPEND` every sensor slot and every process slot is
unchanged. -/
theorem power_management_sets_mode (k : MobileOSKernel) (m : PowerManagementState) :
    (power_management k m).current_power_mode = m ∧
    (m = .POWER_FULL ∨ m = .POWER_INTERACTIVE ∨ m = .POWER_SUSPEND →
      (power_management k m).sensors = k.sensors ∧
      (power_management k m).processes = k.processes) := by
  refine ⟨power_management_mode k m, ?_⟩
  intro hm
  have h1 : m ≠ .POWER_BATTERY_SAVE := by
    rcases hm with h | h | h <;> rw [h] <;> decide
  have h2 : m ≠ .POWER_ULTRA_BATTERY_SAVE := by
    rcases hm with h | h | h <;> rw [h] <;> decide
  rw [power_management_other k m h1 h2]
  exact ⟨rfl, rfl⟩

/-- C16 (witness): `power_management(POWER_SUSPEND)` on a kernel with one sensor. -/
theorem power_management_sets_mode_witness :
    (power_management (oneSensor 50) .POWER_SUSPEND).current_power_mode = .POWER_SUSPEND ∧
    (power_management (oneSensor 50) .POWER_SUSPEND).sensors = (oneSensor 50).sensors ∧
    (power_management (oneSensor 50) .POWER_SUSPEND).processes = (oneSensor 50).processes :=
  have h := power_management_sets_mode (oneSensor 50) .POWER_SUSPEND
  ⟨h.1, h.2 (Or.inr (Or.inr rfl))⟩

/-- C17: `power_management(POWER_ULTRA_BATTERY_SAVE)` leaves every sensor slot (kind, active
flag, buffer, sampling rate) unchanged. -/
theorem ultra_battery_save_spares_sensors (k : MobileOSKernel) (i : Fin MAX_SENSORS) :
    (power_management k .POWER_ULTRA_BATTERY_SAVE).sensors i = k.sensors i := by
  rw [power_management_ultra]

/-- C18: calling `power_management(POWER_ULTRA_BATTERY_SAVE)` twice in a row yields exactly
the kernel state that calling it once yields. -/
theorem ultra_battery_save_idempotent (k : MobileOSKernel) :
    power_management (power_management k .POWER_ULTRA_BATTERY_SAVE) .POWER_ULTRA_BATTERY_SAVE =
      power_management k .POWER_ULTRA_BATTERY_SAVE := by
  rw [power_management_ultra, power_management_ultra]
  simp only [suspendIfLow_idem]

/-! ## Process creation: a full table, and the memory counters -/

/-- C19: when all 128 process slots are occupied, `create_process` returns 0 and leaves the
whole kernel state unchanged. -/
theorem create_process_on_full_table (k : MobileOSKernel) (process_name : List Nat)
    (priority : Nat) (required_permissions : List AppPermission) (permission_count now : Nat)
    (hfull : ∀ j : Fin MAX_PROCESSES, (k.processes j).pid ≠ 0) :
    (create_process k process_name priority required_permissions permission_count now).1 = 0 ∧
    (create_process k process_name priority required_permissions permission_count now).2 = k
    := by
  rw [create_process_full k process_name priority required_permissions permission_count now
    hfull]
  exact ⟨rfl, rfl⟩

/-- C19 (witness): `create_process` on the kernel whose slot `i` holds the process `i + 1`. -/
theorem create_process_on_full_table_witness :
    (create_process fullKernel [65] 3 [.PERM_CAMERA] 1 0).1 = 0 ∧
    (create_process fullKernel [65] 3 [.PERM_CAMERA] 1 0).2 = fullKernel :=
  create_process_on_full_table fullKernel [65] 3 [.PERM_CAMERA] 1 0
    (fun j => Nat.succ_ne_zero j.val)

theorem create_process_memory (k : MobileOSKernel) (process_name : List Nat) (priority : Nat)
    (required_permissions : List AppPermission) (permission_count now : Nat) :
    (create_process k process_name priority required_permissions permission_count
      now).2.available_memory = k.available_memory ∧
    (create_process k process_name priority required_permissions permission_count
      now).2.total_memory = k.total_memory := by
  have h := createCall_cases k
    ⟨process_name, priority, required_permissions, permission_count, now⟩
  simp only [createCall] at h
  rcases h with h | ⟨i, _, h⟩
  · rw [h]; exact ⟨rfl, rfl⟩
  · rw [h]; exact ⟨rfl, rfl⟩

theorem register_sensor_memory (k : MobileOSKernel) (type : SensorType)
    (sampling_rate buf : Nat) :
    (register_sensor k type sampling_rate buf).2.available_memory = k.available_memory ∧
    (register_sensor k type sampling_rate buf).2.total_memory = k.total_memory := by
  have h := registerCall_cases k ⟨type, sampling_rate, buf⟩
  simp only [registerCall] at h
  rcases h with h | ⟨i, _, h⟩
  · rw [h]; exact ⟨rfl, rfl⟩
  · rw [h]; exact ⟨rfl, rfl⟩

/-- C20: `create_process`, `register_sensor`, `power_management`, `generate_security_token`
and `simulate_scheduler` leave both `available_memory` and `total_memory` unchanged. -/
theorem memory_counters_frame (k : MobileOSKernel) (process_name : List Nat) (priority : Nat)
    (required_permissions : List AppPermission) (permission_count create_now : Nat)
    (type : SensorType) (sampling_rate buf : Nat) (new_state : PowerManagementState)
    (rand : Nat → Nat) (token_now : Nat) (scheduler_now : Fin MAX_PROCESSES → Nat) :
    ((create_process k process_name priority required_permissions permission_count
        create_now).2.available_memory = k.available_memory ∧
      (create_process k process_name priority required_permissions permission_count
        create_now).2.total_memory = k.total_memory) ∧
    ((register_sensor k type sampling_rate buf).2.available_memory = k.available_memory ∧
      (register_sensor k type sampling_rate buf).2.total_memory = k.total_memory) ∧
    ((power_management k new_state).available_memory = k.available_memory ∧
      (power_management k new_state).total_memory = k.total_memory) ∧
    ((generate_security_token k rand token_now).available_memory = k.available_memory ∧
      (generate_security_token k rand token_now).total_memory = k.total_memory) ∧
    ((simulate_scheduler k scheduler_now).available_memory = k.available_memory ∧
      (simulate_scheduler k scheduler_now).total_memory = k.total_memory) := by
  refine ⟨create_process_memory k _ _ _ _ _, register_sensor_memory k _ _ _, ?_, ?_, ?_⟩
  · exact ⟨(power_management_memory k new_state).2, (power_management_memory k new_state).1⟩
  · rw [generate_security_token_eq]
    exact ⟨rfl, rfl⟩
  · rw [simulate_scheduler_eq]
    exact ⟨rfl, rfl⟩

/-! ## Process creation: the permission flags of the new slot -/

theorem reclaimSlot_permissions (p : EnhancedProcessControlBlock) :
    (reclaimSlot p).permissions = p.permissions := by
  unfold reclaimSlot; split <;> rfl

theorem suspendIfLow_permissions (p : EnhancedProcessControlBlock) :
    (suspendIfLow p).permissions = p.permissions := by
  unfold suspendIfLow; split <;> rfl

theorem touchIfOccupied_permissions (now : Fin MAX_PROCESSES → Nat) (j : Fin MAX_PROCESSES)
    (p : EnhancedProcessControlBlock) :
    (touchIfOccupied now j p).permissions = p.permissions := by
  unfold touchIfOccupied; split <;> rfl

theorem power_management_permissions (k : MobileOSKernel) (m : PowerManagementState)
    (j : Fin MAX_PROCESSES) :
    ((power_management k m).processes j).permissions = (k.processes j).permissions := by
  cases m
  case POWER_ULTRA_BATTERY_SAVE => rw [power_management_ultra]; exact suspendIfLow_permissions _
  case POWER_BATTERY_SAVE => rw [power_management_battery]
  all_goals rfl

/-- Every operation keeps the permission flags of a slot, unless it is `create_process`
filling that slot, which was free. -/
theorem run_permissions (op : KernelOp) (k k1 : MobileOSKernel) (hrun : op.run k = some k1)
    (j : Fin MAX_PROCESSES) :
    (k1.processes j).permissions = (k.processes j).permissions ∨
    ((k.processes j).pid = 0 ∧ (k1.processes j).pid = j.val + 1) := by
  cases op with
  | create a =>
    have hk : (createCall k a).2 = k1 := Option.some.inj hrun
    subst hk
    rcases createCall_cases k a with h | ⟨i, hi, h⟩
    · rw [h]; exact Or.inl rfl
    · rw [h]
      by_cases hj : j = i
      · subst hj
        right
        refine ⟨hi, ?_⟩
        simp [createdKernel, createdSlot]
      · left
        simp only [createdKernel, Function.update_noteq hj]
  | register a =>
    have hk : (registerCall k a).2 = k1 := Option.some.inj hrun
    subst hk
    rcases registerCall_cases k a with h | ⟨i, _, h⟩
    · rw [h]; exact Or.inl rfl
    · rw [h]; exact Or.inl rfl
  | power m =>
    have hk : power_management k m = k1 := Option.some.inj hrun
    subst hk
    exact Or.inl (power_management_permissions k m j)
  | allocate requested_size handle heap =>
    obtain ⟨r, h⟩ := run_allocate k requested_size handle heap k1 hrun
    left
    rcases alloc_slot k requested_size handle heap r k1 h j with e | e
    · rw [e]
    · rw [e]; exact reclaimSlot_permissions _
  | token rand now =>
    have hk : generate_security_token k rand now = k1 := Option.some.inj hrun
    subst hk
    left
    rw [generate_security_token_eq]
  | scheduler now =>
    have hk : simulate_scheduler k now = k1 := Option.some.inj hrun
    subst hk
    rw [simulate_scheduler_eq]
    exact Or.inl (touchIfOccupied_permissions now j _)

/-- In a reachable state a free slot has no permission flag set. -/
theorem reachable_free_slot (k : MobileOSKernel) (hk : Reachable k) :
    ∀ j : Fin MAX_PROCESSES, (k.processes j).pid = 0 →
      ∀ q : Fin MAX_APP_PERMISSIONS, (k.processes j).permissions q = false := by
  induction hk with
  | init rand now =>
    intro j _ q
    rw [initialize_mobile_os_eq]
    rfl
  | @step op k0 k1 _ hrun ih =>
    intro j hfree q
    rcases run_permissions op k0 k1 hrun j with e | ⟨_, e⟩
    · rw [e]
      rcases run_pid op k0 k1 hrun j with e2 | ⟨_, e2⟩
      · exact ih j (e2 ▸ hfree) q
      · rw [e2] at hfree
        exact absurd hfree (Nat.succ_ne_zero _)
    · rw [e] at hfree
      exact absurd hfree (Nat.succ_ne_zero _)

theorem grantedBy_iff (perms : List AppPermission) (q : Fin MAX_APP_PERMISSIONS) :
    grantedBy perms q = true ↔ ∃ p, p ∈ perms ∧ p.index = q := by
  unfold grantedBy
  rw [List.any_eq_true]
  constructor
  · rintro ⟨p, hp, he⟩
    exact ⟨p, hp, by simpa using he⟩
  · rintro ⟨p, hp, he⟩
    exact ⟨p, hp, by simpa using he⟩

/-- C14: in a reachable kernel state whose first free slot is `i`, `create_process(name,
priority, perms, count)` returns `i + 1` and the new slot stores the given priority; its flag
`permissions[q]` is true exactly when `q` is the index of one of the first `count` entries of
`perms`, that is, when `count` is the length of the list, exactly when `q` occurs in it. -/
theorem created_slot_permissions (k : MobileOSKernel) (hk : Reachable k)
    (i : Fin MAX_PROCESSES) (hfree : (k.processes i).pid = 0)
    (hfirst : ∀ j : Fin MAX_PROCESSES, j.val < i.val → (k.processes j).pid ≠ 0)
    (process_name : List Nat) (priority : Nat) (required_permissions : List AppPermission)
    (permission_count now : Nat) :
    (create_process k process_name priority required_permissions permission_count now).1 =
      i.val + 1 ∧
    ((create_process k process_name priority required_permissions permission_count
      now).2.processes i).priority = priority ∧
    (∀ q : Fin MAX_APP_PERMISSIONS,
      ((create_process k process_name priority required_permissions permission_count
        now).2.processes i).permissions q = true ↔
      ∃ p, p ∈ required_permissions.take permission_count ∧ p.index = q) ∧
    (permission_count = required_permissions.length →
      ∀ q : Fin MAX_APP_PERMISSIONS,
        ((create_process k process_name priority required_permissions permission_count
          now).2.processes i).permissions q = true ↔
        ∃ p, p ∈ required_permissions ∧ p.index = q) := by
  have hclean := reachable_free_slot k hk i hfree
  rw [create_process_first k process_name priority required_permissions permission_count now
    i hfree hfirst]
  have hperm : ∀ q : Fin MAX_APP_PERMISSIONS,
      ((createdKernel k i process_name priority required_permissions permission_count
        now).processes i).permissions q = true ↔
      ∃ p, p ∈ required_permissions.take permission_count ∧ p.index = q := by
    intro q
    simp only [createdKernel, Function.update_same, createdSlot, hclean q, Bool.false_or]
    exact grantedBy_iff _ q
  refine ⟨rfl, ?_, hperm, ?_⟩
  · simp only [createdKernel, Function.update_same, createdSlot]
  · intro hcount q
    rw [hperm q, hcount, List.take_length]

/-- C14 (witness): the first `create_process` after initialization, asking for the location
and network permissions. -/
theorem created_slot_permissions_witness :
    ((create_process (initialize_mobile_os (fun _ => 0) 0) [78] 8
        [.PERM_LOCATION, .PERM_NETWORK] 2 0).2.processes 0).priority = 8 ∧
    (((create_process (initialize_mobile_os (fun _ => 0) 0) [78] 8
        [.PERM_LOCATION, .PERM_NETWORK] 2 0).2.processes 0).permissions 4 = true ↔
      ∃ p, p ∈ [AppPermission.PERM_LOCATION, AppPermission.PERM_NETWORK] ∧ p.index = 4) :=
  have h := created_slot_permissions (initialize_mobile_os (fun _ => 0) 0)
    (Reachable.init _ _) 0 (by decide) (fun j hj => absurd hj (Nat.not_lt_zero _))
    [78] 8 [.PERM_LOCATION, .PERM_NETWORK] 2 0
  ⟨h.2.1, h.2.2.2 rfl 4⟩

/-! ## Token generation -/

set_option maxRecDepth 4096 in
/-- C21 fails as stated: `creation_time` is the clock value cast to `uint32_t`, not the clock
value. At the clock reading 4294967296 the token gets `creation_time` 0; and of two
consecutive calls at the readings 4294967295 and then 4294967296, a non-decreasing clock, the
second `creation_time`, 0, is less than the first, 4294967295. -/
theorem creation_time_wraps :
    (generate_security_token zeroKernel (fun i => 3 * i) 4294967296).system_token.creation_time
      = 0 ∧
    (generate_security_token zeroKernel (fun i => 3 * i) 4294967295).system_token.creation_time
      = 4294967295 ∧
    (generate_security_token (generate_security_token zeroKernel (fun i => 3 * i) 4294967295)
      (fun i => 5 * i) 4294967296).system_token.creation_time = 0 := by
  refine ⟨?_, ?_, ?_⟩
  · rw [generate_security_token_eq]; rfl
  · rw [generate_security_token_eq]; rfl
  · rw [generate_security_token_eq]; rfl

/-- C21 (amended): with the clock reading `now` and the generator's draws `rand` as inputs,
`generate_security_token` sets `is_valid`, sets `creation_time` to the clock value reduced
modulo 2^32 (the clock value itself when that is below 2^32) and byte `i` of the token to the
`i`-th draw modulo 256; the new token does not depend on the kernel it replaces a token in,
and nothing else in the kernel changes. Hence, for two consecutive calls whose clock readings
are below 2^32 with the second not before the first, the second `creation_time` is at least
the first. -/
theorem token_regeneration (k : MobileOSKernel) (rand : Nat → Nat) (now : Nat) :
    (generate_security_token k rand now).system_token.is_valid = true ∧
    (generate_security_token k rand now).system_token.creation_time = now % 4294967296 ∧
    (now < 4294967296 →
      (generate_security_token k rand now).system_token.creation_time = now) ∧
    (∀ i : Fin SECURITY_TOKEN_LENGTH,
      (generate_security_token k rand now).system_token.token i = rand i.val % 256) ∧
    (∀ k0 : MobileOSKernel, (generate_security_token k0 rand now).system_token =
      (generate_security_token k rand now).system_token) ∧
    (generate_security_token k rand now).processes = k.processes ∧
    (generate_security_token k rand now).sensors = k.sensors ∧
    (generate_security_token k rand now).current_power_mode = k.current_power_mode ∧
    (generate_security_token k rand now).total_memory = k.total_memory ∧
    (generate_security_token k rand now).available_memory = k.available_memory ∧
    (∀ (rand2 : Nat → Nat) (now2 : Nat), now ≤ now2 → now2 < 4294967296 →
      (generate_security_token k rand now).system_token.creation_time ≤
        (generate_security_token (generate_security_token k rand now) rand2
          now2).system_token.creation_time ∧
      (generate_security_token (generate_security_token k rand now) rand2
          now2).system_token.creation_time = now2) := by
  have htime : ∀ (k0 : MobileOSKernel) (r : Nat → Nat) (n : Nat),
      (generate_security_token k0 r n).system_token.creation_time = n % 4294967296 := by
    intro k0 r n
    rw [generate_security_token_eq]
    rfl
  refine ⟨?_, htime k rand now, ?_, ?_, ?_, ?_, ?_, ?_, ?_, ?_, ?_⟩
  · rw [generate_security_token_eq]; rfl
  · intro hfit
    rw [htime, Nat.mod_eq_of_lt hfit]
  · intro i; rw [generate_security_token_eq]; rfl
  · intro k0; rw [generate_security_token_eq, generate_security_token_eq]
  · rw [generate_security_token_eq]
  · rw [generate_security_token_eq]
  · rw [generate_security_token_eq]
  · rw [generate_security_token_eq]
  · rw [generate_security_token_eq]
  · intro rand2 now2 hle hfit
    rw [htime, htime, Nat.mod_eq_of_lt hfit, Nat.mod_eq_of_lt (Nat.lt_of_le_of_lt hle hfit)]
    exact ⟨hle, rfl⟩

/-- C21 (amended, witness): two consecutive calls at the clock readings 1000 and 1005 give
the creation times 1000 and 1005. -/
theorem token_regeneration_witness :
    (generate_security_token zeroKernel (fun i => 3 * i) 1000).system_token.creation_time
      = 1000 ∧
    (generate_security_token (generate_security_token zeroKernel (fun i => 3 * i) 1000)
      (fun i => 5 * i) 1005).system_token.creation_time = 1005 :=
  have h := token_regeneration zeroKernel (fun i => 3 * i) 1000
  ⟨h.2.2.1 (by decide),
    (h.2.2.2.2.2.2.2.2.2.2 (fun i => 5 * i) 1005 (by decide) (by decide)).2⟩

/-! ## Free slots under `POWER_ULTRA_BATTERY_SAVE` -/

set_option maxRecDepth 8192 in
/-- C22 does not hold in the code: in the freshly initialized kernel slot 0 is free (`pid` 0,
`power_state` `POWER_FULL`); `power_management(POWER_ULTRA_BATTERY_SAVE)` sets its
`power_state` to `POWER_SUSPEND` although it stays free, and a process of priority 8 created
afterwards in that slot is in `POWER_SUSPEND`. -/
theorem ultra_battery_save_suspends_free_slot :
    ((initialize_mobile_os (fun _ => 0) 0).processes 0).pid = 0 ∧
    ((initialize_mobile_os (fun _ => 0) 0).processes 0).power_state = .POWER_FULL ∧
    ((power_management (initialize_mobile_os (fun _ => 0) 0)
      .POWER_ULTRA_BATTERY_SAVE).processes 0).pid = 0 ∧
    ((power_management (initialize_mobile_os (fun _ => 0) 0)
      .POWER_ULTRA_BATTERY_SAVE).processes 0).power_state = .POWER_SUSPEND ∧
    ((create_process (power_management (initialize_mobile_os (fun _ => 0) 0)
      .POWER_ULTRA_BATTERY_SAVE) [65] 8 [] 0 0).2.processes 0).priority = 8 ∧
    ((create_process (power_management (initialize_mobile_os (fun _ => 0) 0)
      .POWER_ULTRA_BATTERY_SAVE) [65] 8 [] 0 0).2.processes 0).power_state
        = .POWER_SUSPEND := by
  decide

/-! ## Allocation in the reachable states -/

/-- C23: in every reachable kernel state every process slot has `memory_usage = 0`. So,
whatever the heap, a request that does not fit at once returns 0 with the kernel (in
particular `available_memory`) unchanged, a request that fits returns the allocator's handle
and takes `size` off `available_memory`, and, the handle being non-zero,
`adaptive_memory_allocation(size)` returns a non-zero value exactly when
`size ≤ available_memory`. -/
theorem reachable_allocation (k : MobileOSKernel) (hk : Reachable k)
    (requested_size handle : Nat) (heap : Heap) :
    (∀ j : Fin MAX_PROCESSES, (k.processes j).memory_usage = 0) ∧
    (k.available_memory < requested_size →
      adaptive_memory_allocation k requested_size handle heap = some (0, k)) ∧
    (requested_size ≤ k.available_memory →
      ∃ k1 : MobileOSKernel,
        adaptive_memory_allocation k requested_size handle heap = some (handle, k1) ∧
        k1.available_memory = k.available_memory - requested_size) ∧
    (handle ≠ 0 →
      ∃ (r : Nat) (k1 : MobileOSKernel),
        adaptive_memory_allocation k requested_size handle heap = some (r, k1) ∧
        (r ≠ 0 ↔ requested_size ≤ k.available_memory)) := by
  have hzero := (reachable_memory k hk).1
  have husage : ∀ j, suspendedUsage (k.processes j) = 0 :=
    fun j => suspendedUsage_of_no_reclaimable _ (fun _ => hzero j)
  have hshort : k.available_memory < requested_size →
      adaptive_memory_allocation k requested_size handle heap = some (0, k) :=
    fun h => alloc_nothing_to_reclaim k requested_size handle heap h husage
  refine ⟨hzero, hshort, ?_, ?_⟩
  · intro h
    exact ⟨allocatedDirect k requested_size, alloc_fit k requested_size handle heap h, rfl⟩
  · intro hhandle
    by_cases hfit : requested_size ≤ k.available_memory
    · exact ⟨handle, allocatedDirect k requested_size,
        alloc_fit k requested_size handle heap hfit, fun _ => hfit, fun _ => hhandle⟩
    · exact ⟨0, k, hshort (Nat.lt_of_not_le hfit),
        fun h => absurd rfl h, fun h => absurd h hfit⟩

/-- C23 (witness): in the state after initialization and one process creation, a request
for one unit more than the 256 MB budget returns 0. -/
theorem reachable_allocation_witness :
    adaptive_memory_allocation (oneProcess 1) 268435457 7 emptyHeap =
      some (0, oneProcess 1) := by
  have hreach : Reachable (oneProcess 1) :=
    Reachable.step (.create ⟨[65], 1, [.PERM_LOCATION], 1, 0⟩) (.init (fun _ => 0) 0) rfl
  have h := reachable_allocation (oneProcess 1) hreach 268435457 7 emptyHeap
  exact h.2.1 (by decide)

/-! ## Conservation of the memory accounting -/

theorem availAfter_le (k : MobileOSKernel) (m : Nat) :
    availAfter k m ≤ k.available_memory + suspendedSum k.processes m := by
  rw [availAfter_eq]
  split
  · exact Nat.le_add_right _ _
  · exact Nat.mod_le _ _

/-- Reclaiming from the slots `< m` moves their suspended usage out of the usage sum. -/
theorem usageSum_reclaimed (k : MobileOSKernel) (m : Nat) :
    ∀ n : Nat, n ≤ MAX_PROCESSES →
      usageSum (reclaimedPrefix k m).processes n + suspendedSum k.processes (min n m) =
        usageSum k.processes n := by
  intro n
  induction n with
  | zero => intro _; simp [usageSum, suspendedSum]
  | succ n ih =>
    intro hn
    have hlt : n < MAX_PROCESSES := hn
    have ih0 := ih (Nat.le_of_succ_le hn)
    simp only [usageSum, hlt, dite_true]
    by_cases hnm : n < m
    · have e1 : min n m = n := Nat.min_eq_left (Nat.le_of_lt hnm)
      have e2 : min (n + 1) m = n + 1 := Nat.min_eq_left hnm
      have hslot : (reclaimedPrefix k m).processes ⟨n, hlt⟩ =
          reclaimSlot (k.processes ⟨n, hlt⟩) := by
        simp only [reclaimedPrefix, hnm, if_true]
      have hsum := suspendedSum_succ k.processes ⟨n, hlt⟩
      simp only at hsum
      rw [e1] at ih0
      rw [e2, hslot, hsum, reclaimSlot_memory_usage]
      unfold suspendedUsage
      split <;> omega
    · have e1 : min n m = m := Nat.min_eq_right (Nat.le_of_not_lt hnm)
      have e2 : min (n + 1) m = m := Nat.min_eq_right (by omega)
      have hslot : (reclaimedPrefix k m).processes ⟨n, hlt⟩ = k.processes ⟨n, hlt⟩ := by
        simp only [reclaimedPrefix, hnm, if_false]
      rw [e1] at ih0
      rw [e2, hslot]
      omega

theorem reclaimedPrefix_conserves (k : MobileOSKernel) (m : Nat) (hm : m ≤ MAX_PROCESSES) :
    availAfter k m + usageSum (reclaimedPrefix k m).processes MAX_PROCESSES ≤
      k.available_memory + usageSum k.processes MAX_PROCESSES := by
  have h1 := usageSum_reclaimed k m MAX_PROCESSES (Nat.le_refl _)
  have e : min MAX_PROCESSES m = m := Nat.min_eq_right hm
  rw [e] at h1
  have h2 := availAfter_le k m
  omega

/-- On a call that returns, `available_memory` plus the usage of all slots does not grow and
`total_memory` is kept. -/
theorem alloc_conserves_of_defined (k : MobileOSKernel) (requested_size handle : Nat)
    (heap : Heap) (r : Nat) (k1 : MobileOSKernel)
    (hres : adaptive_memory_allocation k requested_size handle heap = some (r, k1)) :
    k1.available_memory + usageSum k1.processes MAX_PROCESSES ≤
      k.available_memory + usageSum k.processes MAX_PROCESSES ∧
    k1.total_memory = k.total_memory := by
  rcases alloc_cases k requested_size handle heap with h | ⟨_, h⟩ | ⟨_, i, _, h⟩ | ⟨_, _, h⟩
  · rw [h] at hres; exact Option.noConfusion hres
  · rw [h] at hres
    have hk : allocatedDirect k requested_size = k1 := congrArg Prod.snd (Option.some.inj hres)
    subst hk
    refine ⟨?_, rfl⟩
    show k.available_memory - requested_size + usageSum k.processes MAX_PROCESSES ≤ _
    omega
  · rw [h] at hres
    have hk : allocatedAfter k (i.val + 1) requested_size = k1 :=
      congrArg Prod.snd (Option.some.inj hres)
    subst hk
    refine ⟨?_, rfl⟩
    have hc := reclaimedPrefix_conserves k (i.val + 1) i.isLt
    show availAfter k (i.val + 1) - requested_size +
      usageSum (reclaimedPrefix k (i.val + 1)).processes MAX_PROCESSES ≤ _
    omega
  · rw [h] at hres
    have hk : reclaimedPrefix k MAX_PROCESSES = k1 := congrArg Prod.snd (Option.some.inj hres)
    subst hk
    exact ⟨reclaimedPrefix_conserves k MAX_PROCESSES (Nat.le_refl _), rfl⟩

/-- C24: from a state in which `available_memory` plus the sum of `memory_usage` over all
process slots is at most `total_memory`, whenever `adaptive_memory_allocation(size)` returns,
that sum is still at most `total_memory`, in particular `available_memory ≤ total_memory`, and
the sum has not increased; and the call does return when no iteration of the reclamation loop
frees an address that is not a live block. -/
theorem memory_accounting_conserved (k : MobileOSKernel) (requested_size handle : Nat)
    (heap : Heap)
    (hinv : k.available_memory + usageSum k.processes MAX_PROCESSES ≤ k.total_memory) :
    ((∀ j : Fin MAX_PROCESSES, ¬ reclaimCrash heap k j) →
      ∃ (r : Nat) (k1 : MobileOSKernel),
        adaptive_memory_allocation k requested_size handle heap = some (r, k1)) ∧
    (∀ (r : Nat) (k1 : MobileOSKernel),
      adaptive_memory_allocation k requested_size handle heap = some (r, k1) →
      k1.available_memory + usageSum k1.processes MAX_PROCESSES ≤ k1.total_memory ∧
      k1.available_memory ≤ k1.total_memory ∧
      k1.available_memory + usageSum k1.processes MAX_PROCESSES ≤
        k.available_memory + usageSum k.processes MAX_PROCESSES) := by
  refine ⟨alloc_defined_of_live_blocks k requested_size handle heap, ?_⟩
  intro r k1 hres
  obtain ⟨hle, htotal⟩ := alloc_conserves_of_defined k requested_size handle heap r k1 hres
  rw [htotal]
  refine ⟨?_, ?_, hle⟩ <;> omega

set_option maxRecDepth 8192 in
/-- C24 (witness): with 100 units free of 1048576 and a suspended process whose `memory_usage`
4096 is the address of a live block, `allocate(400)` returns the handle and leaves
`available_memory` 3796, within `total_memory`. -/
theorem memory_accounting_conserved_witness :
    (adaptive_memory_allocation (blockHolder 100 4096) 400 7 (oneBlock 4096)).map
      (fun r => (r.1, decide (r.2.available_memory ≤ r.2.total_memory))) = some (7, true) := by
  have hret : (adaptive_memory_allocation (blockHolder 100 4096) 400 7 (oneBlock 4096)).map
      (fun r => r.1) = some 7 := by decide
  have h := memory_accounting_conserved (blockHolder 100 4096) 400 7 (oneBlock 4096)
    (by decide)
  cases hres : adaptive_memory_allocation (blockHolder 100 4096) 400 7 (oneBlock 4096) with
  | none => rw [hres] at hret; exact Option.noConfusion hret
  | some r =>
    obtain ⟨r1, k1⟩ := r
    rw [hres] at hret
    have hr : r1 = 7 := Option.some.inj hret
    have hle : k1.available_memory ≤ k1.total_memory := (h.2 r1 k1 hres).2.1
    rw [Option.map_some']
    simp only [hr, hle, decide_True]

/-! ## Process creation: what is written -/

/-- C25: when `i` is the first free slot, `create_process` writes in slot `i` the `pid`, the
`process_name`, the `priority`, the `last_active_timestamp` and the flags of the permissions
named in the first `permission_count` entries; every other flag of slot `i`, its `power_state`
and its `memory_usage` keep the values the free slot held, and every other process slot, every
sensor slot, the token and the power mode are unchanged. -/
theorem create_process_writes (k : MobileOSKernel) (i : Fin MAX_PROCESSES)
    (hfree : (k.processes i).pid = 0)
    (hfirst : ∀ j : Fin MAX_PROCESSES, j.val < i.val → (k.processes j).pid ≠ 0)
    (process_name : List Nat) (priority : Nat) (required_permissions : List AppPermission)
    (permission_count now : Nat) :
    ((create_process k process_name priority required_permissions permission_count
      now).2.processes i).pid = i.val + 1 ∧
    ((create_process k process_name priority required_permissions permission_count
      now).2.processes i).process_name = strncpy (k.processes i).process_name process_name 31 ∧
    ((create_process k process_name priority required_permissions permission_count
      now).2.processes i).priority = priority ∧
    ((create_process k process_name priority required_permissions permission_count
      now).2.processes i).last_active_timestamp = system_time now ∧
    (∀ q : Fin MAX_APP_PERMISSIONS,
      (∃ p, p ∈ required_permissions.take permission_count ∧ p.index = q) →
      ((create_process k process_name priority required_permissions permission_count
        now).2.processes i).permissions q = true) ∧
    (∀ q : Fin MAX_APP_PERMISSIONS,
      (¬ ∃ p, p ∈ required_permissions.take permission_count ∧ p.index = q) →
      ((create_process k process_name priority required_permissions permission_count
        now).2.processes i).permissions q = (k.processes i).permissions q) ∧
    ((create_process k process_name priority required_permissions permission_count
      now).2.processes i).power_state = (k.processes i).power_state ∧
    ((create_process k process_name priority required_permissions permission_count
      now).2.processes i).memory_usage = (k.processes i).memory_usage ∧
    (∀ j : Fin MAX_PROCESSES, j ≠ i →
      (create_process k process_name priority required_permissions permission_count
        now).2.processes j = k.processes j) ∧
    (create_process k process_name priority required_permissions permission_count
      now).2.sensors = k.sensors ∧
    (create_process k process_name priority required_permissions permission_count
      now).2.system_token = k.system_token ∧
    (create_process k process_name priority required_permissions permission_count
      now).2.current_power_mode = k.current_power_mode := by
  rw [create_process_first k process_name priority required_permissions permission_count now
    i hfree hfirst]
  have hslot : (createdKernel k i process_name priority required_permissions permission_count
      now).processes i = createdSlot (k.processes i) i process_name priority
        required_permissions permission_count now := by
    simp only [createdKernel, Function.update_same]
  refine ⟨?_, ?_, ?_, ?_, ?_, ?_, ?_, ?_, ?_, rfl, rfl, rfl⟩
  · rw [hslot]; rfl
  · rw [hslot]; rfl
  · rw [hslot]; rfl
  · rw [hslot]; rfl
  · intro q hq
    rw [hslot]
    show ((k.processes i).permissions q ||
      grantedBy (required_permissions.take permission_count) q) = true
    rw [(grantedBy_iff _ q).mpr hq, Bool.or_true]
  · intro q hq
    rw [hslot]
    show ((k.processes i).permissions q ||
      grantedBy (required_permissions.take permission_count) q) = _
    have hno : grantedBy (required_permissions.take permission_count) q = false := by
      cases hg : grantedBy (required_permissions.take permission_count) q
      · rfl
      · exact absurd ((grantedBy_iff _ q).mp hg) hq
    rw [hno, Bool.or_false]
  · rw [hslot]; rfl
  · rw [hslot]; rfl
  · intro j hj
    simp only [createdKernel, Function.update_noteq hj]

set_option maxRecDepth 8192 in
/-- C25 (witness): after `power_management(POWER_ULTRA_BATTERY_SAVE)` on the freshly
initialized kernel, the process created in slot 0 has the `power_state` the free slot held. -/
theorem create_process_writes_witness :
    ((create_process (power_management (initialize_mobile_os (fun _ => 0) 0)
      .POWER_ULTRA_BATTERY_SAVE) [65] 8 [.PERM_CAMERA] 1 0).2.processes 0).power_state =
    ((power_management (initialize_mobile_os (fun _ => 0) 0)
      .POWER_ULTRA_BATTERY_SAVE).processes 0).power_state :=
  have h := create_process_writes (power_management (initialize_mobile_os (fun _ => 0) 0)
    .POWER_ULTRA_BATTERY_SAVE) 0 (by decide) (fun j hj => absurd hj (Nat.not_lt_zero _))
    [65] 8 [.PERM_CAMERA] 1 0
  h.2.2.2.2.2.2.1

end MobileOS
